import Mathlib

/-!
Verification development for the DEVJAMS25 incident-consolidation pipeline.

Each pipeline stage of the repository is a Python batch job over a relational
store.  We embed the store as lists of rows (one structure per table), the
external collaborators (language model, embedding API, geocoder) as explicit
oracle functions passed to each stage, and each stage's main loop as a fold
over the fetched work list.  Machine-level details that the claims do not
touch (timestamps, SERIAL keys that are never read back, console output,
rate-limit sleeps) are omitted; everything the claims mention is modelled
from the source files named next to each definition.
-/

/-- Python `dict.get(k, d)` over a parsed JSON object, modelled as an
association list: first binding for `k`, else the default `d`. -/
def pyGet (kvs : List (String × String)) (k d : String) : String :=
  match kvs.find? (fun p => p.1 == k) with
  | some p => p.2
  | none => d

/-- An embedding vector (`models/text-embedding-004` output).  The floats
are modelled with integer coordinates: cosine similarity is invariant under
positive scaling of each vector, so any finite-precision vector can be
scaled to an integer one without changing any neighbourhood test. -/
abbrev Vec := List ℤ

/-- Dot product of two vectors (missing tail coordinates count as 0). -/
def dotV : Vec → Vec → ℤ
  | [], _ => 0
  | _, [] => 0
  | a :: as, b :: bs => a * b + dotV as bs

/-- Squared Euclidean norm. -/
def normSq (u : Vec) : ℤ := dotV u u

/-- `tweet_grouper.py` line 175 runs `DBSCAN(eps=0.5, min_samples=2,
metric='cosine')`.  Cosine distance is `1 - dot u v / (‖u‖ * ‖v‖)`, and the
neighbourhood test `distance ≤ 0.5` is equivalent (for nonzero vectors) to
`2 * dot u v ≥ ‖u‖ * ‖v‖`, i.e. `0 ≤ dot u v` together with
`normSq u * normSq v ≤ 4 * (dot u v)^2`. -/
def cosNear (u v : Vec) : Bool :=
  decide (0 ≤ dotV u v ∧ normSq u * normSq v ≤ 4 * (dotV u v * dotV u v))

/-!
## DBSCAN with `min_samples = 2` (`tweet_grouper.py` line 175)

With `min_samples = 2` a point is core iff it has at least one *other*
sample within `eps`, and any point within `eps` of a core point is then
itself core, so there are no border points: sklearn's clusters are exactly
the connected components of the ε-neighbourhood graph, and points with no
neighbour get label `-1` (noise).  We compute the component of an index by
iterating one-step expansion `length` times (the component has at most
`length` members, so this reaches the closure), and use the least index of
the component as the canonical cluster label — sklearn numbers clusters by
discovery order instead, but the induced partition of indices, which is all
the grouper reads from `db.labels_`, is the same.
-/

/-- Index `j` is an ε-neighbour of index `i` (a different sample within
cosine distance 0.5). -/
def nearIdx (pts : List Vec) (i j : Nat) : Bool :=
  i != j && cosNear (pts.getD i []) (pts.getD j [])

/-- Core point test for `min_samples = 2`: some other sample within ε. -/
def isCoreIdx (pts : List Vec) (i : Nat) : Bool :=
  (List.range pts.length).any (fun j => nearIdx pts i j)

/-- One expansion step of a tentative cluster `s`: add every index adjacent
to some member of `s`. -/
def expandIdx (pts : List Vec) (s : List Nat) : List Nat :=
  (List.range pts.length).filter (fun j => s.contains j || s.any (fun i => nearIdx pts i j))

/-- The connected component of index `i` in the ε-neighbourhood graph. -/
def componentIdx (pts : List Vec) (i : Nat) : List Nat :=
  (expandIdx pts)^[pts.length] [i]

/-- The DBSCAN label of index `i`: `-1` for noise, otherwise the least index
of its connected component (a canonical representative of the cluster). -/
def labelOf (pts : List Vec) (i : Nat) : Int :=
  if isCoreIdx pts i then Int.ofNat ((componentIdx pts i).foldr min i) else -1

/-- `db.labels_`: the label of every sample, in input order. -/
def labelsOf (pts : List Vec) : List Int :=
  (List.range pts.length).map (labelOf pts)

/-- `set(labels)` minus the noise label: the distinct cluster labels the
grouper's main loop visits (`tweet_grouper.py` lines 178-181; iteration
order over a Python set is unspecified, so any fixed deduplication order is
a faithful model). -/
def nonNoiseLabels (labels : List Int) : List Int :=
  labels.dedup.filter (fun lab => lab != -1)

/-- `cluster_indices = [i for i, l in enumerate(labels) if l == label]`
(`tweet_grouper.py` line 183). -/
def clusterIdxs (labels : List Int) (lab : Int) : List Nat :=
  (List.range labels.length).filter (fun i => labels.getD i (-1) == lab)

/-!
## Clustering stage store (`tweet_grouper.py`)
-/

/-- A row of `incident_reports` as the grouper reads it (line 69): primary
key, original tweet text, extracted location and issue, and the grouping
status (`'unprocessed'` or `'grouped'`). -/
structure Incident where
  id : Nat
  original_tweet_text : String
  extracted_location : String
  extracted_issue : String
  status : String
deriving DecidableEq, Repr

/-- A row of `final_report` as inserted by the grouper (line 83): summary,
location, member ids and their count.  The SERIAL key and timestamp are
never read back by this stage and are omitted. -/
structure EventRow where
  event_summary : String
  event_location : String
  source_incident_ids : List Nat
  number_of_reports : Nat
deriving DecidableEq, Repr

/-- The slice of the database the clustering stage touches. -/
structure GStore where
  incident_reports : List Incident
  final_report : List EventRow
deriving DecidableEq, Repr

/-- `fetch_unprocessed_incidents` (`tweet_grouper.py` line 69). -/
def fetchUnprocessed (s : GStore) : List Incident :=
  s.incident_reports.filter (fun inc => inc.status == "unprocessed")

/-- The composite clustering key `f"{location}: {issue}"`
(`tweet_grouper.py` line 168). -/
def compositeText (inc : Incident) : String :=
  inc.extracted_location ++ ": " ++ inc.extracted_issue

/-- `summarize_cluster` (`tweet_grouper.py` lines 113-153).  The oracle is
the generative-model call together with JSON parsing: `Except.error` when
the call raises or the response fails to parse, `Except.ok kvs` when it
parses to a JSON object with bindings `kvs`.  On success missing keys fall
back to `"Could not generate summary."` / `"Not specified"`; on error the
pair is `("Could not generate summary.", "Error")`. -/
def summarize_cluster (oracle : List String → Except String (List (String × String)))
    (texts : List String) : String × String :=
  match oracle texts with
  | Except.ok kvs =>
      (pyGet kvs "summary" "Could not generate summary.",
       pyGet kvs "location" "Not specified")
  | Except.error _ =>
      ("Could not generate summary.", "Error")

/-- The members of cluster `lab`: `[incidents[i] for i in cluster_indices]`
(`tweet_grouper.py` line 184). -/
def clusterMembers (incs : List Incident) (labels : List Int) (lab : Int) : List Incident :=
  (clusterIdxs labels lab).filterMap (fun i => incs[i]?)

/-- The member ids of cluster `lab` (`tweet_grouper.py` line 185). -/
def clusterIds (incs : List Incident) (labels : List Int) (lab : Int) : List Nat :=
  (clusterMembers incs labels lab).map (fun inc => inc.id)

/-- The `final_report` row built for cluster `lab`
(`tweet_grouper.py` lines 191-199): summary and location from
`summarize_cluster` over the members' original texts, the member ids, and
`number_of_reports = len(incident_ids)`. -/
def eventFor (su : List String → Except String (List (String × String)))
    (incs : List Incident) (labels : List Int) (lab : Int) : EventRow :=
  let sd := summarize_cluster su ((clusterMembers incs labels lab).map
      (fun inc => inc.original_tweet_text))
  { event_summary := sd.1
    event_location := sd.2
    source_incident_ids := clusterIds incs labels lab
    number_of_reports := (clusterIds incs labels lab).length }

/-- `insert_final_event_report` (`tweet_grouper.py` lines 78-86): one INSERT
into `final_report`, committed on its own. -/
def insertFinalEventReport (s : GStore) (e : EventRow) : GStore :=
  { s with final_report := s.final_report ++ [e] }

/-- `update_incident_status` (`tweet_grouper.py` lines 88-95): set status to
`'grouped'` for every row whose id is in the list, committed on its own. -/
def updateIncidentStatus (s : GStore) (ids : List Nat) : GStore :=
  { s with incident_reports := s.incident_reports.map (fun inc =>
      if ids.contains inc.id then { inc with status := "grouped" } else inc) }

/-- One iteration of the grouper's cluster loop, returning the store after
each of its two commits: first the `final_report` INSERT, then the status
UPDATE (`tweet_grouper.py` lines 199-200). -/
def clusterSteps (su : List String → Except String (List (String × String)))
    (incs : List Incident) (labels : List Int) (lab : Int) (s : GStore) : GStore × GStore :=
  let e := eventFor su incs labels lab
  let s1 := insertFinalEventReport s e
  (s1, updateIncidentStatus s1 e.source_incident_ids)

/-- The store after both commits of one cluster iteration. -/
def processCluster (su : List String → Except String (List (String × String)))
    (incs : List Incident) (labels : List Int) (lab : Int) (s : GStore) : GStore :=
  (clusterSteps su incs labels lab s).2

/-- The sequence of committed database states produced by the cluster loop:
for each non-noise label, the state after the event INSERT commit and the
state after the status UPDATE commit. -/
def groupTrace (su : List String → Except String (List (String × String)))
    (incs : List Incident) (labels : List Int) : List Int → GStore → List GStore
  | [], _ => []
  | lab :: rest, s =>
      let p := clusterSteps su incs labels lab s
      p.1 :: p.2 :: groupTrace su incs labels rest p.2

/-- One run of the clustering stage (`tweet_grouper.py` main block):
fetch the unprocessed incidents, embed their composite texts (the embedding
oracle returns `none` when `get_embeddings` fails, which aborts the run),
cluster, and process every non-noise cluster in turn. -/
def runGrouper (embed : List String → Option (List Vec))
    (su : List String → Except String (List (String × String))) (s : GStore) : GStore :=
  let incs := fetchUnprocessed s
  match embed (incs.map compositeText) with
  | none => s
  | some vecs =>
      let labels := labelsOf vecs
      (nonNoiseLabels labels).foldl
        (fun st lab => processCluster su incs labels lab st) s

/-- The committed states a run of the clustering stage goes through after
its initial state. -/
def runGrouperTrace (embed : List String → Option (List Vec))
    (su : List String → Except String (List (String × String))) (s : GStore) : List GStore :=
  let incs := fetchUnprocessed s
  match embed (incs.map compositeText) with
  | none => []
  | some vecs =>
      let labels := labelsOf vecs
      groupTrace su incs labels (nonNoiseLabels labels) s

/-- An embedding collaborator that embeds each text independently, the
behaviour of `genai.embed_content` on a batch: the batch call returns the
per-text embeddings in order. -/
def pointwiseEmbed (f : String → Vec) : List String → Option (List Vec) :=
  fun texts => some (texts.map f)

/-- The embedding of one incident's composite text. -/
def vecOf (f : String → Vec) (inc : Incident) : Vec :=
  f (compositeText inc)

/-!
## Classifier stage (`tweet_classify.py`)
-/

/-- A row of the `tweets` table: primary key, body text, and the
classification status (default `'unclassified'`). -/
structure Tweet where
  id : Nat
  text : String
  status : String
deriving DecidableEq, Repr

/-- A row of `actionable_tweets`: the source tweet id (UNIQUE) and text. -/
structure ActionableRow where
  source_tweet_id : Nat
  original_tweet_text : String
deriving DecidableEq, Repr

/-- The slice of the database the classifier stage touches. -/
structure CStore where
  tweets : List Tweet
  actionable_tweets : List ActionableRow
deriving DecidableEq, Repr

/-- `classify_text` (`tweet_classify.py` lines 7-55).  The oracle is the
model call plus JSON parsing: `none` when the call raises or the response is
unparseable (the except branch returns `"Error"`), `some kvs` when it parses
to a JSON object, in which case a missing `"classification"` key also
defaults to `"Error"`. -/
def classify_text (oracle : String → Option (List (String × String))) (text : String) : String :=
  match oracle text with
  | some kvs => pyGet kvs "classification" "Error"
  | none => "Error"

/-- `insert_actionable_tweet` (`tweet_classify.py` lines 106-114):
INSERT ... ON CONFLICT (source_tweet_id) DO NOTHING. -/
def insert_actionable_tweet (tbl : List ActionableRow) (text : String) (sid : Nat) :
    List ActionableRow :=
  if tbl.any (fun r => r.source_tweet_id == sid) then tbl
  else tbl ++ [{ source_tweet_id := sid, original_tweet_text := text }]

/-- `update_tweet_status` (`tweet_classify.py` lines 116-124): set the
status of every tweet with the given id to `'classified'`. -/
def update_tweet_status (tws : List Tweet) (tid : Nat) : List Tweet :=
  tws.map (fun t => if t.id == tid then { t with status := "classified" } else t)

/-- One iteration of the classifier loop (`tweet_classify.py` lines
147-158): classify, insert into `actionable_tweets` when the label is
`"Actionable"`, then always mark the tweet classified. -/
def classifierStep (c : String → Option (List (String × String))) (s : CStore) (t : Tweet) :
    CStore :=
  let cl := classify_text c t.text
  let s1 := if cl == "Actionable"
    then { s with actionable_tweets := insert_actionable_tweet s.actionable_tweets t.text t.id }
    else s
  { s1 with tweets := update_tweet_status s1.tweets t.id }

/-- `fetch_unclassified_tweets` (`tweet_classify.py` lines 96-104). -/
def classifierItems (s : CStore) : List Tweet :=
  s.tweets.filter (fun t => t.status == "unclassified")

/-- One run of the classifier stage (`tweet_classify.py` main block). -/
def runClassifier (c : String → Option (List (String × String))) (s : CStore) : CStore :=
  (classifierItems s).foldl (classifierStep c) s

/-!
## Extractor stage (`tweet_processer_1.py`)
-/

/-- A row of `incident_reports` as the extractor writes it (lines 71-87):
the UNIQUE source tweet id, the three extracted fields, and the original
text. -/
structure IncidentRow where
  original_tweet_id : Nat
  extracted_location : String
  extracted_issue : String
  issue_time : String
  original_tweet_text : String
deriving DecidableEq, Repr

/-- The slice of the database the extractor stage touches.  This stage never
writes `tweets`; its work selection is a left anti-join. -/
structure EStore where
  tweets : List Tweet
  incident_reports : List IncidentRow
deriving DecidableEq, Repr

/-- `fetch_unprocessed_tweets` (`tweet_processer_1.py` lines 55-69): tweets
with no `incident_reports` row for their id. -/
def extractorItems (s : EStore) : List Tweet :=
  s.tweets.filter (fun t =>
    !(s.incident_reports.any (fun r => r.original_tweet_id == t.id)))

/-- `insert_incident_report` (`tweet_processer_1.py` lines 71-87):
INSERT ... ON CONFLICT (original_tweet_id) DO NOTHING. -/
def insert_incident_report (tbl : List IncidentRow) (r : IncidentRow) : List IncidentRow :=
  if tbl.any (fun q => q.original_tweet_id == r.original_tweet_id) then tbl
  else tbl ++ [r]

/-- The report dictionary built in the extractor's main loop
(`tweet_processer_1.py` lines 136-142): each of the three fields defaults to
the sentinel `"Extraction Failed"` when its key is absent. -/
def mkReport (t : Tweet) (kvs : List (String × String)) : IncidentRow :=
  { original_tweet_id := t.id
    extracted_location := pyGet kvs "location" "Extraction Failed"
    extracted_issue := pyGet kvs "issue" "Extraction Failed"
    issue_time := pyGet kvs "time" "Extraction Failed"
    original_tweet_text := t.text }

/-- One iteration of the extractor loop (`tweet_processer_1.py` lines
130-149).  The oracle is `extract_incident_details`: `none` when the model
call or `json.loads` raises (the function returns `None`), `some kvs` for a
parsed JSON object.  The guard `if extracted_data:` is Python truthiness, so
an *empty* parsed object is also treated as a failure.  On failure nothing
is written and no status exists to advance; on success the report row is
inserted if absent. -/
def extractorStep (o : String → Option (List (String × String))) (s : EStore) (t : Tweet) :
    EStore :=
  match o t.text with
  | some kvs =>
      if kvs.isEmpty then s
      else { s with incident_reports := insert_incident_report s.incident_reports (mkReport t kvs) }
  | none => s

/-- One run of the extractor stage (`tweet_processer_1.py` main block). -/
def runExtractor (o : String → Option (List (String × String))) (s : EStore) : EStore :=
  (extractorItems s).foldl (extractorStep o) s

/-!
## Combined processor (`tweet_classify_processer.py`)
-/

/-- The slice of the database the combined extract-and-classify processor
touches. -/
structure PStore where
  tweets : List Tweet
  incident_reports : List IncidentRow
  actionable_tweets : List ActionableRow
deriving DecidableEq, Repr

/-- `fetch_unclassified_tweets` (`tweet_classify_processer.py` lines
129-135). -/
def processorItems (s : PStore) : List Tweet :=
  s.tweets.filter (fun t => t.status == "unclassified")

/-- One iteration of the combined loop (`tweet_classify_processer.py` lines
190-225): extract details (insert an `incident_reports` row when the
response is a nonempty parsed object), classify (insert an
`actionable_tweets` row when `"Actionable"`), and then *unconditionally*
mark the tweet `'processed'`. -/
def processorStep (o c : String → Option (List (String × String))) (s : PStore) (t : Tweet) :
    PStore :=
  let s1 := match o t.text with
    | some kvs =>
        if kvs.isEmpty then s
        else { s with incident_reports := insert_incident_report s.incident_reports (mkReport t kvs) }
    | none => s
  let s2 := if classify_text c t.text == "Actionable"
    then { s1 with actionable_tweets := insert_actionable_tweet s1.actionable_tweets t.text t.id }
    else s1
  { s2 with tweets := s2.tweets.map (fun tw =>
      if tw.id == t.id then { tw with status := "processed" } else tw) }

/-- One run of the combined processor (`tweet_classify_processer.py` main
block). -/
def runProcessor (o c : String → Option (List (String × String))) (s : PStore) : PStore :=
  (processorItems s).foldl (processorStep o c) s

/-!
## Geocoding stage (`tweet_geocoder_new.py`) and dispatch API
(`api_server_new.py`)
-/

/-- A row of `final_report` as the geocoder reads it (lines 66-71),
including the SERIAL primary key it joins on. -/
structure FinalReportRow where
  id : Nat
  event_summary : String
  event_location : String
  number_of_reports : Nat
deriving DecidableEq, Repr

/-- A row of `geocoded_tweets` (`tweet_geocoder_new.py` lines 37-49):
UNIQUE source report id, nullable coordinates, copied event fields, and the
dispatch status (default `'reported'`). -/
structure GeoRow where
  source_report_id : Nat
  latitude : Option ℚ
  longitude : Option ℚ
  event_summary : String
  event_location : String
  number_of_reports : Nat
  status : String
deriving DecidableEq, Repr

/-- The slice of the database the geocoding stage touches. -/
structure GeoStore where
  final_report : List FinalReportRow
  geocoded_tweets : List GeoRow
deriving DecidableEq, Repr

/-- `fetch_unprocessed_reports` (`tweet_geocoder_new.py` lines 62-75):
final reports with no `geocoded_tweets` row for their id. -/
def geocoderItems (s : GeoStore) : List FinalReportRow :=
  s.final_report.filter (fun e =>
    !(s.geocoded_tweets.any (fun r => r.source_report_id == e.id)))

/-- `insert_geocoded_report` (`tweet_geocoder_new.py` lines 77-93):
INSERT ... ON CONFLICT (source_report_id) DO NOTHING; the status column
takes its default `'reported'`. -/
def insert_geocoded_report (tbl : List GeoRow) (r : GeoRow) : List GeoRow :=
  if tbl.any (fun q => q.source_report_id == r.source_report_id) then tbl
  else tbl ++ [r]

/-- One iteration of the geocoder loop (`tweet_geocoder_new.py` lines
106-115).  The oracle is `DataManager.get_coordinates`: `none` on a missing
key, an empty result set, or a request error; `some (lat, lon)` on success.
The query is the event location with the region suffix `", Vellore"`.  On
`none` nothing is persisted (left for retry); on success the row is
inserted if absent. -/
def geocoderStep (g : String → Option (ℚ × ℚ)) (s : GeoStore) (e : FinalReportRow) : GeoStore :=
  match g (e.event_location ++ ", Vellore") with
  | some (la, lo) =>
      let r : GeoRow := ⟨e.id, some la, some lo, e.event_summary, e.event_location,
        e.number_of_reports, "reported"⟩
      { s with geocoded_tweets := insert_geocoded_report s.geocoded_tweets r }
  | none => s

/-- One run of the geocoding stage (`tweet_geocoder_new.py` main block). -/
def runGeocoder (g : String → Option (ℚ × ℚ)) (s : GeoStore) : GeoStore :=
  (geocoderItems s).foldl (geocoderStep g) s

/-- `SELECT status FROM geocoded_tweets WHERE source_report_id = %s` plus
`fetchone()`: the status of the first matching row, if any
(`api_server_new.py` line 67). -/
def fetch_status (tbl : List GeoRow) (rid : Nat) : Option String :=
  (tbl.find? (fun r => r.source_report_id == rid)).map (fun r => r.status)

/-- `UPDATE geocoded_tweets SET status = %s WHERE source_report_id = %s`. -/
def set_status (tbl : List GeoRow) (rid : Nat) (st : String) : List GeoRow :=
  tbl.map (fun r => if r.source_report_id == rid then { r with status := st } else r)

/-- `dispatch_incident` (`api_server_new.py` lines 60-79).  When no row has
the requested id, `cur.fetchone()` returns `None` and `None[0]` raises an
unhandled `TypeError` (an HTTP 500, not a 404); otherwise the status is
toggled: `'reported'` if it was `'dispatched'`, else `'dispatched'`. -/
def dispatch_incident (tbl : List GeoRow) (rid : Nat) :
    Except String (List GeoRow × String) :=
  match fetch_status tbl rid with
  | none => Except.error "TypeError: NoneType object is not subscriptable"
  | some cur =>
      let new := if cur == "dispatched" then "reported" else "dispatched"
      Except.ok (set_status tbl rid new, new)

/-- `complete_incident` (`api_server_new.py` lines 81-97): an unconditional
UPDATE to `'completed'`; the endpoint replies `{'success': True}` whether or
not any row matched. -/
def complete_incident (tbl : List GeoRow) (rid : Nat) : List GeoRow × Bool :=
  (set_status tbl rid "completed", true)

/-!
## DBSCAN partition semantics for determinism (claim about
`tweet_grouper.py` line 175)

For order-independence we also state the cluster partition denotationally,
at the level of (report id, embedding vector) pairs: with `min_samples = 2`
two reports are in the same DBSCAN cluster exactly when they are connected
in the ε-neighbourhood graph over the input, and a report is noise exactly
when it has no neighbour.  Everything is phrased through list membership,
which is what makes the partition a function of the input *set*.
-/

/-- A report with its embedding vector. -/
abbrev RV := Nat × Vec

/-- `b` is an ε-neighbour of `a`: a different report within cosine
distance 0.5. -/
def nearRV (a b : RV) : Prop := a.1 ≠ b.1 ∧ cosNear a.2 b.2 = true

/-- An edge of the ε-neighbourhood graph over the input `l`. -/
def edgeIn (l : List RV) (a b : RV) : Prop := a ∈ l ∧ b ∈ l ∧ nearRV a b

/-- `a` is noise in input `l`: present but with no ε-neighbour
(DBSCAN label −1 under `min_samples = 2`). -/
def isNoise (l : List RV) (a : RV) : Prop := a ∈ l ∧ ¬ ∃ b ∈ l, nearRV a b

/-- `a` and `b` are members of one common DBSCAN cluster of input `l`:
`a` is a core point of `l` and `b` is reachable from `a` in the
ε-neighbourhood graph (with `min_samples = 2` every cluster point is core
and clusters are the connected components of that graph). -/
def sameCluster (l : List RV) (a b : RV) : Prop :=
  (∃ c ∈ l, nearRV a c) ∧ a ∈ l ∧ Relation.ReflTransGen (edgeIn l) a b

/-!
## Store invariants
-/

/-- The Event invariants of the grouped store: every `final_report` row is
nonempty, carries an accurate report count, lists no member twice, and all
its members exist with status `'grouped'`; and no incident id is listed by
two different `final_report` rows. -/
def eventInvariant (s : GStore) : Prop :=
  (∀ e ∈ s.final_report,
      e.source_incident_ids ≠ [] ∧
      e.number_of_reports = e.source_incident_ids.length ∧
      e.source_incident_ids.Nodup ∧
      ∀ a ∈ e.source_incident_ids,
        ∃ inc ∈ s.incident_reports, inc.id = a ∧ inc.status = "grouped") ∧
  List.Pairwise (fun e1 e2 => ∀ a ∈ e1.source_incident_ids, a ∉ e2.source_incident_ids)
    s.final_report

/-!
## Concrete fixtures for witnesses and counterexamples

Named collaborator behaviours and a small store realising the spec's own
example scenario (three reports, two about Gandhi Nagar within ε of each
other, one Katpadi Road singleton left as noise under `min_samples = 2`).
-/

/-- A collaborator whose call raises (network/config error) for every
input. -/
def failKV : String → Option (List (String × String)) := fun _ => none

/-- A collaborator returning a fixed parsed JSON object for every input. -/
def constKV (kvs : List (String × String)) : String → Option (List (String × String)) :=
  fun _ => some kvs

/-- A summarization collaborator whose call raises for every input. -/
def failSum : List String → Except String (List (String × String)) :=
  fun _ => Except.error "ResourceExhausted"

/-- A summarization collaborator returning a fixed parsed JSON object. -/
def constSum (kvs : List (String × String)) :
    List String → Except String (List (String × String)) :=
  fun _ => Except.ok kvs

/-- A per-text embedding: the Katpadi Road report is orthogonal to the two
Gandhi Nagar reports, which coincide. -/
def exEmbed : String → Vec :=
  fun t => if t = "Katpadi Road: tree fallen" then [0, 1] else [1, 0]

/-- Three unprocessed incident reports, the spec's example scenario. -/
def exIncidents : List Incident :=
  [⟨1, "Water entering houses in Gandhi Nagar", "Gandhi Nagar", "flooding", "unprocessed"⟩,
   ⟨2, "Gandhi Nagar street is underwater", "Gandhi Nagar", "water rising", "unprocessed"⟩,
   ⟨3, "Tree fell on Katpadi Road", "Katpadi Road", "tree fallen", "unprocessed"⟩]

/-- The clustering-stage store holding the example scenario. -/
def exGStore : GStore := ⟨exIncidents, []⟩

/-- The committed state after the grouper's status-update commit on the
example store (the Gandhi Nagar cluster grouped, the noise singleton left
unprocessed). -/
def exGStoreAfter : GStore :=
  ⟨[⟨1, "Water entering houses in Gandhi Nagar", "Gandhi Nagar", "flooding", "grouped"⟩,
    ⟨2, "Gandhi Nagar street is underwater", "Gandhi Nagar", "water rising", "grouped"⟩,
    ⟨3, "Tree fell on Katpadi Road", "Katpadi Road", "tree fallen", "unprocessed"⟩],
   [⟨"Could not generate summary.", "Error", [1, 2], 2⟩]⟩

/-- A geocoder that resolves every query to a fixed coordinate pair. -/
def constGeo : String → Option (ℚ × ℚ) := fun _ => some (1, 2)

/-- A geocoder that fails (not-found or request error) on every query. -/
def failGeo : String → Option (ℚ × ℚ) := fun _ => none

/-- A classifier collaborator that labels every text `"Actionable"`. -/
def actionKV : String → Option (List (String × String)) :=
  fun _ => some [("classification", "Actionable")]

/-- A classifier-stage store with one unclassified tweet. -/
def exCStore : CStore := ⟨[⟨1, "Tree down in Viruthampet", "unclassified"⟩], []⟩

/-- An extractor-stage store with one tweet not yet extracted. -/
def exEStore : EStore := ⟨[⟨1, "Tree down in Viruthampet", "unclassified"⟩], []⟩

/-- A geocoder-stage store with one final report not yet geocoded. -/
def exGeoStore : GeoStore := ⟨[⟨1, "Flooding in Gandhi Nagar", "Gandhi Nagar", 2⟩], []⟩

/-- A combined-processor store with one unclassified tweet. -/
def exPStore : PStore := ⟨[⟨1, "Tree down in Viruthampet", "unclassified"⟩], [], []⟩

/-!
# Helper lemmas
-/

theorem dotV_comm (u v : Vec) : dotV u v = dotV v u := by
  induction u generalizing v with
  | nil => cases v <;> simp [dotV]
  | cons a as ih =>
    cases v with
    | nil => simp [dotV]
    | cons b bs => simp [dotV, ih, mul_comm]

theorem cosNear_symm (u v : Vec) : cosNear u v = cosNear v u := by
  simp [cosNear, dotV_comm u v, mul_comm (normSq u) (normSq v)]

theorem fetch_status_set_status (tbl : List GeoRow) (rid : Nat) (st : String)
    (h : (fetch_status tbl rid).isSome) :
    fetch_status (set_status tbl rid st) rid = some st := by
  induction tbl with
  | nil => simp [fetch_status] at h
  | cons r tl ih =>
    by_cases hr : (r.source_report_id == rid) = true
    · have h1 : set_status (r :: tl) rid st = { r with status := st } :: set_status tl rid st := by
        unfold set_status
        rw [List.map_cons, if_pos hr]
      rw [h1]
      unfold fetch_status
      rw [List.find?_cons_of_pos _ (by simpa using hr)]
      rfl
    · have h1 : set_status (r :: tl) rid st = r :: set_status tl rid st := by
        unfold set_status
        rw [List.map_cons, if_neg hr]
      have h2 : fetch_status (r :: tl) rid = fetch_status tl rid := by
        unfold fetch_status
        rw [List.find?_cons_of_neg _ (by simpa using hr)]
      rw [h1]
      have h3 : fetch_status (r :: set_status tl rid st) rid
          = fetch_status (set_status tl rid st) rid := by
        unfold fetch_status
        rw [List.find?_cons_of_neg _ (by simpa using hr)]
      rw [h3]
      exact ih (by rw [← h2]; exact h)

theorem set_status_no_row (tbl : List GeoRow) (rid : Nat) (st : String)
    (h : fetch_status tbl rid = none) :
    set_status tbl rid st = tbl := by
  have hfind : List.find? (fun r => r.source_report_id == rid) tbl = none := by
    unfold fetch_status at h
    cases hf : List.find? (fun r => r.source_report_id == rid) tbl with
    | none => rfl
    | some r => rw [hf] at h; simp at h
  have hall : ∀ r ∈ tbl, (r.source_report_id == rid) = false := by
    intro r hr
    simpa using List.find?_eq_none.mp hfind r hr
  unfold set_status
  conv_rhs => rw [← List.map_id tbl]
  apply List.map_congr_left
  intro r hr
  simp [hall r hr]

/-!
# Claim theorems
-/

/-- C1 counterexample: `'completed'` is not terminal.  On a store whose only
row is `'completed'`, a dispatch action is not rejected and moves the row to
`'dispatched'`, contradicting "a further dispatch action on a 'completed'
row is rejected or leaves the status 'completed'". -/
theorem dispatch_on_completed_not_terminal :
    dispatch_incident [⟨1, none, none, "s", "l", 1, "completed"⟩] 1
      = Except.ok ([⟨1, none, none, "s", "l", 1, "dispatched"⟩], "dispatched") ∧
    fetch_status [⟨1, none, none, "s", "l", 1, "dispatched"⟩] 1 = some "dispatched" := by
  constructor <;> rfl

/-- C1 amended: for a GeocodedEvent with status `'reported'`, one dispatch
yields `'dispatched'`, a second returns it to `'reported'`, and a complete
action from either state yields `'completed'`; but `'completed'` is not
terminal: a further dispatch action on a `'completed'` row succeeds and sets
the status to `'dispatched'`. -/
theorem dispatch_toggle_and_complete (tbl : List GeoRow) (rid : Nat)
    (h : fetch_status tbl rid = some "reported") :
    dispatch_incident tbl rid = Except.ok (set_status tbl rid "dispatched", "dispatched") ∧
    fetch_status (set_status tbl rid "dispatched") rid = some "dispatched" ∧
    dispatch_incident (set_status tbl rid "dispatched") rid
      = Except.ok (set_status (set_status tbl rid "dispatched") rid "reported", "reported") ∧
    fetch_status (set_status (set_status tbl rid "dispatched") rid "reported") rid
      = some "reported" ∧
    fetch_status (complete_incident tbl rid).1 rid = some "completed" ∧
    fetch_status (complete_incident (set_status tbl rid "dispatched") rid).1 rid
      = some "completed" ∧
    (∀ tbl2 : List GeoRow, fetch_status tbl2 rid = some "completed" →
      dispatch_incident tbl2 rid
        = Except.ok (set_status tbl2 rid "dispatched", "dispatched") ∧
      fetch_status (set_status tbl2 rid "dispatched") rid = some "dispatched") := by
  have h1 : (fetch_status tbl rid).isSome = true := by rw [h]; rfl
  have f2 : fetch_status (set_status tbl rid "dispatched") rid = some "dispatched" :=
    fetch_status_set_status tbl rid _ h1
  have h2 : (fetch_status (set_status tbl rid "dispatched") rid).isSome = true := by
    rw [f2]; rfl
  refine ⟨?_, f2, ?_, ?_, ?_, ?_, ?_⟩
  · unfold dispatch_incident
    rw [h]
    rfl
  · unfold dispatch_incident
    rw [f2]
    rfl
  · exact fetch_status_set_status _ rid _ h2
  · exact fetch_status_set_status tbl rid _ h1
  · exact fetch_status_set_status _ rid _ h2
  · intro tbl2 h4
    have h5 : (fetch_status tbl2 rid).isSome = true := by rw [h4]; rfl
    constructor
    · unfold dispatch_incident
      rw [h4]
      rfl
    · exact fetch_status_set_status tbl2 rid _ h5

/-- C1 witness: the amended state machine evaluated on a one-row store. -/
theorem dispatch_toggle_and_complete_witness :
    fetch_status [⟨5, none, none, "s", "l", 1, "reported"⟩] 5 = some "reported" ∧
    fetch_status (set_status [⟨5, none, none, "s", "l", 1, "reported"⟩] 5 "dispatched") 5
      = some "dispatched" :=
  ⟨by rfl, (dispatch_toggle_and_complete [⟨5, none, none, "s", "l", 1, "reported"⟩] 5 (by rfl)).2.1⟩

/-- C8 counterexample: a complete action on an id with no row performs no
state change but reports success (it is not a NotFound failure), and a
dispatch action on the same id fails with an unhandled `TypeError`, not a
NotFound result. -/
theorem complete_missing_id_succeeds :
    complete_incident [] 7 = ([], true) ∧
    dispatch_incident ([] : List GeoRow) 7
      = Except.error "TypeError: NoneType object is not subscriptable" := by
  constructor <;> rfl

/-- C8 amended: when no `geocoded_tweets` row has the requested id, a
dispatch action raises an unhandled exception (`fetchone()` returns `None`
and `None[0]` is a `TypeError`, surfaced as an HTTP 500, not a 404) and
changes nothing, while a complete action changes nothing but still reports
success; neither action yields a NotFound result. -/
theorem missing_id_handling (tbl : List GeoRow) (rid : Nat)
    (h : fetch_status tbl rid = none) :
    dispatch_incident tbl rid
      = Except.error "TypeError: NoneType object is not subscriptable" ∧
    complete_incident tbl rid = (tbl, true) := by
  constructor
  · unfold dispatch_incident
    rw [h]
  · unfold complete_incident
    rw [set_status_no_row tbl rid _ h]

/-- C8 witness: the amended behaviour evaluated on a one-row store and an
absent id. -/
theorem missing_id_handling_witness :
    fetch_status [⟨5, none, none, "s", "l", 1, "reported"⟩] 9 = none ∧
    complete_incident [⟨5, none, none, "s", "l", 1, "reported"⟩] 9
      = ([⟨5, none, none, "s", "l", 1, "reported"⟩], true) :=
  ⟨by rfl, (missing_id_handling [⟨5, none, none, "s", "l", 1, "reported"⟩] 9 (by rfl)).2⟩

/-- C9: DBSCAN cluster membership and the noise set are invariant under
permutation of the input reports — clustering with a fixed symmetric
neighbourhood test is a function of the input set, independent of input
ordering. -/
theorem clustering_order_invariant (l l2 : List RV) (h : l.Perm l2) :
    (∀ a b : RV, sameCluster l a b ↔ sameCluster l2 a b) ∧
    (∀ a : RV, isNoise l a ↔ isNoise l2 a) := by
  have hm : ∀ x : RV, x ∈ l ↔ x ∈ l2 := fun x => h.mem_iff
  have he : ∀ a b : RV, edgeIn l a b ↔ edgeIn l2 a b := by
    intro a b
    unfold edgeIn
    rw [hm a, hm b]
  have hr : ∀ a b : RV, Relation.ReflTransGen (edgeIn l) a b ↔
      Relation.ReflTransGen (edgeIn l2) a b := by
    intro a b
    constructor
    · intro hab
      exact Relation.ReflTransGen.mono (fun x y hxy => (he x y).1 hxy) hab
    · intro hab
      exact Relation.ReflTransGen.mono (fun x y hxy => (he x y).2 hxy) hab
  constructor
  · intro a b
    unfold sameCluster
    rw [hr a b]
    constructor
    · rintro ⟨⟨c, hc, hn⟩, ha, h2⟩
      exact ⟨⟨c, (hm c).1 hc, hn⟩, (hm a).1 ha, h2⟩
    · rintro ⟨⟨c, hc, hn⟩, ha, h2⟩
      exact ⟨⟨c, (hm c).2 hc, hn⟩, (hm a).2 ha, h2⟩
  · intro a
    unfold isNoise
    constructor
    · rintro ⟨h1, h2⟩
      exact ⟨(hm a).1 h1, fun ⟨b, hb, hn⟩ => h2 ⟨b, (hm b).2 hb, hn⟩⟩
    · rintro ⟨h1, h2⟩
      exact ⟨(hm a).2 h1, fun ⟨b, hb, hn⟩ => h2 ⟨b, (hm b).1 hb, hn⟩⟩

/-- C9 witness: the invariance applied to the example embedding set and a
reversal of it. -/
theorem clustering_order_invariant_witness :
    ([((1 : Nat), ([1, 0] : Vec)), (2, [1, 0]), (3, [0, 1])].Perm
      [(3, ([0, 1] : Vec)), (2, [1, 0]), (1, [1, 0])]) ∧
    (isNoise [((1 : Nat), ([1, 0] : Vec)), (2, [1, 0]), (3, [0, 1])] (3, [0, 1]) ↔
      isNoise [(3, ([0, 1] : Vec)), (2, [1, 0]), (1, [1, 0])] (3, [0, 1])) :=
  ⟨by decide,
   (clustering_order_invariant
      [((1 : Nat), ([1, 0] : Vec)), (2, [1, 0]), (3, [0, 1])]
      [(3, ([0, 1] : Vec)), (2, [1, 0]), (1, [1, 0])] (by decide)).2 (3, [0, 1])⟩

/-- C10: the summarizer wrapper is total and its success-path defaults
differ from its failure sentinels: a parsed response missing the
`"summary"`/`"location"` keys falls back to `"Could not generate
summary."`/`"Not specified"`, only a raised/unparseable call yields the pair
`("Could not generate summary.", "Error")`, and the Event row is persisted
with the wrapper's output in every case. -/
theorem summarizer_totality_and_defaults
    (su : List String → Except String (List (String × String)))
    (texts : List String) (kvs : List (String × String)) (err : String)
    (incs : List Incident) (labels : List Int) (lab : Int) (s : GStore) :
    (su texts = Except.ok kvs →
      (kvs.find? (fun p => p.1 == "summary") = none →
        (summarize_cluster su texts).1 = "Could not generate summary.") ∧
      (kvs.find? (fun p => p.1 == "location") = none →
        (summarize_cluster su texts).2 = "Not specified")) ∧
    (su texts = Except.error err →
      summarize_cluster su texts = ("Could not generate summary.", "Error")) ∧
    (eventFor su incs labels lab).event_summary
      = (summarize_cluster su ((clusterMembers incs labels lab).map
          (fun inc => inc.original_tweet_text))).1 ∧
    (eventFor su incs labels lab).event_location
      = (summarize_cluster su ((clusterMembers incs labels lab).map
          (fun inc => inc.original_tweet_text))).2 ∧
    (processCluster su incs labels lab s).final_report
      = s.final_report ++ [eventFor su incs labels lab] := by
  refine ⟨?_, ?_, rfl, rfl, rfl⟩
  · intro hok
    constructor
    · intro hs
      unfold summarize_cluster
      rw [hok]
      simp [pyGet, hs]
    · intro hl
      unfold summarize_cluster
      rw [hok]
      simp [pyGet, hl]
  · intro herr
    unfold summarize_cluster
    rw [herr]

/-- C10 witness: a response that parses but has no keys produces the
`"Not specified"` location (not the failure sentinel `"Error"`). -/
theorem summarizer_totality_witness :
    constSum [] ["a"] = Except.ok [] ∧
    (summarize_cluster (constSum []) ["a"]).2 = "Not specified" :=
  ⟨rfl, ((summarizer_totality_and_defaults (constSum []) ["a"] [] "e" [] [] 0 ⟨[], []⟩).1 rfl).2 rfl⟩

theorem groupTrace_grouped_has_event
    (su : List String → Except String (List (String × String)))
    (incs : List Incident) (labels : List Int) :
    ∀ (labs : List Int) (s0 s : GStore),
      (∀ inc ∈ s.incident_reports, inc.status = "grouped" →
        (∃ inc0 ∈ s0.incident_reports, inc0.id = inc.id ∧ inc0.status = "grouped") ∨
        ∃ e ∈ s.final_report, inc.id ∈ e.source_incident_ids) →
      ∀ t ∈ groupTrace su incs labels labs s,
        ∀ inc ∈ t.incident_reports, inc.status = "grouped" →
          (∃ inc0 ∈ s0.incident_reports, inc0.id = inc.id ∧ inc0.status = "grouped") ∨
          ∃ e ∈ t.final_report, inc.id ∈ e.source_incident_ids := by
  intro labs
  induction labs with
  | nil =>
    intro s0 s hs t ht
    simp [groupTrace] at ht
  | cons lab rest ih =>
    intro s0 s hs t ht
    have hp1 : (clusterSteps su incs labels lab s).1
        = insertFinalEventReport s (eventFor su incs labels lab) := rfl
    have hp2 : (clusterSteps su incs labels lab s).2
        = updateIncidentStatus (insertFinalEventReport s (eventFor su incs labels lab))
            (eventFor su incs labels lab).source_incident_ids := rfl
    -- the property after the INSERT commit
    have hP1 : ∀ inc ∈ (clusterSteps su incs labels lab s).1.incident_reports,
        inc.status = "grouped" →
        (∃ inc0 ∈ s0.incident_reports, inc0.id = inc.id ∧ inc0.status = "grouped") ∨
        ∃ e ∈ (clusterSteps su incs labels lab s).1.final_report,
          inc.id ∈ e.source_incident_ids := by
      rw [hp1]
      intro inc hin hg
      rcases hs inc hin hg with h0 | ⟨e, he, hid⟩
      · exact Or.inl h0
      · exact Or.inr ⟨e, List.mem_append_left _ he, hid⟩
    -- the property after the UPDATE commit
    have hP2 : ∀ inc ∈ (clusterSteps su incs labels lab s).2.incident_reports,
        inc.status = "grouped" →
        (∃ inc0 ∈ s0.incident_reports, inc0.id = inc.id ∧ inc0.status = "grouped") ∨
        ∃ e ∈ (clusterSteps su incs labels lab s).2.final_report,
          inc.id ∈ e.source_incident_ids := by
      rw [hp2]
      intro inc hin hg
      unfold updateIncidentStatus at hin
      rcases List.mem_map.mp hin with ⟨inc0, h0, hup⟩
      by_cases hc : ((eventFor su incs labels lab).source_incident_ids.contains inc0.id) = true
      · rw [if_pos hc] at hup
        refine Or.inr ⟨eventFor su incs labels lab, ?_, ?_⟩
        · exact List.mem_append_right _ (List.mem_singleton.mpr rfl)
        · have : inc.id = inc0.id := by rw [← hup]
          rw [this]
          simpa using hc
      · rw [if_neg hc] at hup
        rw [← hup] at hg ⊢
        exact hP1 inc0 h0 hg
    rw [show groupTrace su incs labels (lab :: rest) s
        = (clusterSteps su incs labels lab s).1 :: (clusterSteps su incs labels lab s).2 ::
          groupTrace su incs labels rest (clusterSteps su incs labels lab s).2 from rfl] at ht
    rcases List.mem_cons.mp ht with rfl | ht2
    · exact hP1
    rcases List.mem_cons.mp ht2 with rfl | ht3
    · exact hP2
    · exact ih s0 (clusterSteps su incs labels lab s).2 hP2 t ht3

/-- C2 counterexample: the Event INSERT and the member-status UPDATE are
committed separately.  Running the grouper on the example store, the first
committed state of the trace already contains the `final_report` row listing
members 1 and 2 while both members still have status `'unprocessed'`. -/
theorem event_insert_commits_before_status :
    (runGrouperTrace (pointwiseEmbed exEmbed) failSum exGStore).map
        (fun t => (t.final_report.map (fun e => e.source_incident_ids),
                   t.incident_reports.map (fun i => (i.id, i.status))))
      = [([[1, 2]], [(1, "unprocessed"), (2, "unprocessed"), (3, "unprocessed")]),
         ([[1, 2]], [(1, "grouped"), (2, "grouped"), (3, "unprocessed")])] := by
  decide

/-- C2 amended: the two writes are separate transactions, committed in the
order INSERT then UPDATE, so the anomaly is one-directional: a committed
state may show the Event row while members are still `'unprocessed'`, but in
every committed state of a run, any incident with status `'grouped'` that
was not already grouped initially is listed by some `final_report` row
already present in that state. -/
theorem event_commit_one_directional
    (embed : List String → Option (List Vec))
    (su : List String → Except String (List (String × String)))
    (s : GStore) (t : GStore) (ht : t ∈ runGrouperTrace embed su s)
    (inc : Incident) (hinc : inc ∈ t.incident_reports) (hst : inc.status = "grouped") :
    (∃ inc0 ∈ s.incident_reports, inc0.id = inc.id ∧ inc0.status = "grouped") ∨
    ∃ e ∈ t.final_report, inc.id ∈ e.source_incident_ids := by
  rw [show runGrouperTrace embed su s
      = (match embed ((fetchUnprocessed s).map compositeText) with
         | none => []
         | some vecs => groupTrace su (fetchUnprocessed s) (labelsOf vecs)
             (nonNoiseLabels (labelsOf vecs)) s) from rfl] at ht
  cases hemb : embed ((fetchUnprocessed s).map compositeText) with
  | none => rw [hemb] at ht; simp at ht
  | some vecs =>
    rw [hemb] at ht
    exact groupTrace_grouped_has_event su (fetchUnprocessed s) (labelsOf vecs)
      (nonNoiseLabels (labelsOf vecs)) s s
      (fun inc0 h0 hg => Or.inl ⟨inc0, h0, rfl, hg⟩) t ht inc hinc hst

/-- C2 witness: the one-directional guarantee applied to the second
committed state of the example run and its first grouped member. -/
theorem event_commit_one_directional_witness :
    exGStoreAfter ∈ runGrouperTrace (pointwiseEmbed exEmbed) failSum exGStore ∧
    ((∃ inc0 ∈ exGStore.incident_reports,
        inc0.id = (1 : Nat) ∧ inc0.status = "grouped") ∨
     ∃ e ∈ exGStoreAfter.final_report, (1 : Nat) ∈ e.source_incident_ids) :=
  ⟨by decide,
   event_commit_one_directional (pointwiseEmbed exEmbed) failSum exGStore exGStoreAfter
     (by decide)
     ⟨1, "Water entering houses in Gandhi Nagar", "Gandhi Nagar", "flooding", "grouped"⟩
     (by decide) rfl⟩

theorem groupFold_final (su : List String → Except String (List (String × String)))
    (incs : List Incident) (labels : List Int) :
    ∀ (labs : List Int) (s : GStore),
      (labs.foldl (fun st lab => processCluster su incs labels lab st) s).final_report
        = s.final_report ++ labs.map (eventFor su incs labels) := by
  intro labs
  induction labs with
  | nil => intro s; simp
  | cons lab rest ih =>
    intro s
    rw [List.foldl_cons, ih]
    have hstep : (processCluster su incs labels lab s).final_report
        = s.final_report ++ [eventFor su incs labels lab] := rfl
    rw [hstep, List.map_cons, List.append_assoc]
    rfl

theorem groupFold_incidents (su : List String → Except String (List (String × String)))
    (incs : List Incident) (labels : List Int) :
    ∀ (labs : List Int) (s : GStore),
      (labs.foldl (fun st lab => processCluster su incs labels lab st) s).incident_reports
        = s.incident_reports.map (fun inc =>
            if labs.any (fun lab => (clusterIds incs labels lab).contains inc.id)
            then { inc with status := "grouped" } else inc) := by
  intro labs
  induction labs with
  | nil =>
    intro s
    simp
  | cons lab rest ih =>
    intro s
    rw [List.foldl_cons, ih]
    have hstep : (processCluster su incs labels lab s).incident_reports
        = s.incident_reports.map (fun inc =>
            if (clusterIds incs labels lab).contains inc.id
            then { inc with status := "grouped" } else inc) := rfl
    rw [hstep, List.map_map]
    apply List.map_congr_left
    intro inc _
    by_cases hc : inc.id ∈ clusterIds incs labels lab <;>
      simp [hc]

theorem labelsOf_length (pts : List Vec) : (labelsOf pts).length = pts.length := by
  simp [labelsOf]

theorem labelsOf_getD (pts : List Vec) (i : Nat) (hi : i < pts.length) :
    (labelsOf pts).getD i (-1) = labelOf pts i := by
  rw [List.getD_eq_getElem?_getD]
  unfold labelsOf
  rw [List.getElem?_map, List.getElem?_range hi]
  rfl

theorem mem_clusterIdxs_iff (labels : List Int) (lab : Int) (i : Nat) :
    i ∈ clusterIdxs labels lab ↔ i < labels.length ∧ labels.getD i (-1) = lab := by
  unfold clusterIdxs
  simp [List.mem_filter, List.mem_range]

theorem labelOf_eq_neg_one_iff (pts : List Vec) (i : Nat) :
    labelOf pts i = -1 ↔ isCoreIdx pts i = false := by
  unfold labelOf
  by_cases hc : isCoreIdx pts i = true
  · rw [if_pos hc, hc]
    constructor
    · intro h
      exact Int.noConfusion h
    · intro h
      cases h
  · rw [if_neg hc]
    simp only [Bool.not_eq_true] at hc
    exact ⟨fun _ => hc, fun _ => rfl⟩

theorem mem_nonNoiseLabels_of_core (pts : List Vec) (i : Nat) (hi : i < pts.length)
    (hc : isCoreIdx pts i = true) :
    labelOf pts i ∈ nonNoiseLabels (labelsOf pts) := by
  unfold nonNoiseLabels
  rw [List.mem_filter]
  refine ⟨?_, ?_⟩
  · rw [List.mem_dedup]
    exact List.mem_map.mpr ⟨i, List.mem_range.mpr hi, rfl⟩
  · have hne : labelOf pts i ≠ -1 := by
      intro h
      rw [labelOf_eq_neg_one_iff] at h
      rw [hc] at h
      cases h
    simpa using hne

theorem idx_eq_of_nodup_map_id (incs : List Incident)
    (hnd : (incs.map (fun inc => inc.id)).Nodup)
    {i j : Nat} (hi : i < incs.length) (hj : j < incs.length)
    (h : incs[i].id = incs[j].id) : i = j := by
  have hlen : (incs.map (fun inc => inc.id)).length = incs.length := by simp
  have h2 : (incs.map (fun inc => inc.id)).get ⟨i, by rw [hlen]; exact hi⟩
      = (incs.map (fun inc => inc.id)).get ⟨j, by rw [hlen]; exact hj⟩ := by
    rw [List.get_map, List.get_map]
    simpa using h
  have h3 := (hnd.get_inj_iff).mp h2
  simpa using congrArg Fin.val h3

theorem core_id_mem_clusterIds (f : String → Vec) (incs : List Incident) (i : Nat)
    (hi : i < incs.length) (hcore : isCoreIdx (incs.map (vecOf f)) i = true) :
    incs[i].id
      ∈ clusterIds incs (labelsOf (incs.map (vecOf f))) (labelOf (incs.map (vecOf f)) i) := by
  have hlen : (incs.map (vecOf f)).length = incs.length := by simp
  have hi2 : i < (labelsOf (incs.map (vecOf f))).length := by
    rw [labelsOf_length, hlen]
    exact hi
  have hidx : i ∈ clusterIdxs (labelsOf (incs.map (vecOf f))) (labelOf (incs.map (vecOf f)) i) := by
    rw [mem_clusterIdxs_iff]
    exact ⟨hi2, labelsOf_getD _ i (by rw [hlen]; exact hi)⟩
  have hmem : incs[i] ∈ clusterMembers incs (labelsOf (incs.map (vecOf f)))
      (labelOf (incs.map (vecOf f)) i) := by
    unfold clusterMembers
    exact List.mem_filterMap.mpr ⟨i, hidx, List.getElem?_eq_getElem hi⟩
  exact List.mem_map.mpr ⟨_, hmem, rfl⟩

theorem mem_clusterMembers_elim (incs : List Incident) (labels : List Int) (lab : Int)
    (m : Incident) (hm : m ∈ clusterMembers incs labels lab) :
    ∃ j, ∃ hj : j < incs.length, m = incs[j] ∧ j < labels.length ∧ labels.getD j (-1) = lab := by
  unfold clusterMembers at hm
  rcases List.mem_filterMap.mp hm with ⟨j, hj, hjm⟩
  rw [mem_clusterIdxs_iff] at hj
  rcases List.getElem?_eq_some.mp hjm with ⟨hlt, hval⟩
  exact ⟨j, hlt, hval.symm, hj.1, hj.2⟩

theorem noise_id_not_mem_clusterIds (f : String → Vec) (incs : List Incident)
    (hnd : (incs.map (fun inc => inc.id)).Nodup) (i : Nat) (hi : i < incs.length)
    (hnoise : labelOf (incs.map (vecOf f)) i = -1) :
    ∀ lab ∈ nonNoiseLabels (labelsOf (incs.map (vecOf f))),
      incs[i].id ∉ clusterIds incs (labelsOf (incs.map (vecOf f))) lab := by
  intro lab hlab hmem
  have hlabne : lab ≠ -1 := by
    have h2 := (List.mem_filter.mp hlab).2
    simpa using h2
  unfold clusterIds at hmem
  rcases List.mem_map.mp hmem with ⟨m, hm, hid⟩
  rcases mem_clusterMembers_elim incs _ lab m hm with ⟨j, hjlt, hmj, hj1, hj2⟩
  have hji : j = i := by
    apply idx_eq_of_nodup_map_id incs hnd hjlt hi
    rw [← hmj]
    exact hid
  rw [hji] at hj2
  rw [labelsOf_getD _ i (by simpa using hi), hnoise] at hj2
  exact hlabne hj2.symm

theorem clusterIds_nodup (incs : List Incident)
    (hnd : (incs.map (fun inc => inc.id)).Nodup) (labels : List Int) (lab : Int) :
    (clusterIds incs labels lab).Nodup := by
  have hidxs : (clusterIdxs labels lab).Pairwise (fun i j => i ≠ j) :=
    (List.nodup_range _).filter _
  have hmem : (clusterMembers incs labels lab).Pairwise (fun m m2 => m.id ≠ m2.id) := by
    unfold clusterMembers
    refine List.Pairwise.filterMap (fun i => incs[i]?) ?_ hidxs
    intro i j hij m hm m2 hm2
    rcases List.getElem?_eq_some.mp (Option.mem_def.mp hm) with ⟨hi1, hi2⟩
    rcases List.getElem?_eq_some.mp (Option.mem_def.mp hm2) with ⟨hj1, hj2⟩
    intro hidq
    apply hij
    apply idx_eq_of_nodup_map_id incs hnd hi1 hj1
    rw [hi2, hj2]
    exact hidq
  unfold clusterIds
  exact List.pairwise_map.mpr hmem

theorem vec_getD_map (f : String → Vec) (incs : List Incident) (i : Nat)
    (hi : i < incs.length) :
    (incs.map (vecOf f)).getD i [] = vecOf f incs[i] := by
  rw [List.getD_eq_getElem?_getD, List.getElem?_map, List.getElem?_eq_getElem hi]
  rfl

theorem isCoreIdx_iff (pts : List Vec) (i : Nat) :
    isCoreIdx pts i = true ↔
      ∃ j, j < pts.length ∧ i ≠ j ∧ cosNear (pts.getD i []) (pts.getD j []) = true := by
  unfold isCoreIdx nearIdx
  rw [List.any_eq_true]
  constructor
  · rintro ⟨j, hj, hcond⟩
    rw [Bool.and_eq_true] at hcond
    exact ⟨j, List.mem_range.mp hj, by simpa using hcond.1, hcond.2⟩
  · rintro ⟨j, hj, hne, hcos⟩
    refine ⟨j, List.mem_range.mpr hj, ?_⟩
    rw [Bool.and_eq_true]
    exact ⟨by simpa using hne, hcos⟩

theorem core_of_label_ne_neg_one (pts : List Vec) (i : Nat)
    (h : labelOf pts i ≠ -1) : isCoreIdx pts i = true := by
  by_cases hc : isCoreIdx pts i = true
  · exact hc
  · exact absurd ((labelOf_eq_neg_one_iff pts i).mpr (by simpa using hc)) h

theorem clusterIds_ne_nil (f : String → Vec) (incs : List Incident) (lab : Int)
    (hlab : lab ∈ nonNoiseLabels (labelsOf (incs.map (vecOf f)))) :
    clusterIds incs (labelsOf (incs.map (vecOf f))) lab ≠ [] := by
  have hlabne : lab ≠ -1 := by
    have h2 := (List.mem_filter.mp hlab).2
    simpa using h2
  have hmem : lab ∈ labelsOf (incs.map (vecOf f)) :=
    List.mem_dedup.mp (List.mem_filter.mp hlab).1
  rcases List.mem_map.mp hmem with ⟨i, hir, hlabel⟩
  have hi : i < incs.length := by
    have h3 := List.mem_range.mp hir
    simpa using h3
  have hcore : isCoreIdx (incs.map (vecOf f)) i = true :=
    core_of_label_ne_neg_one _ i (by rw [hlabel]; exact hlabne)
  intro hnil
  have hin : incs[i].id ∈ clusterIds incs (labelsOf (incs.map (vecOf f))) lab := by
    rw [← hlabel]
    exact core_id_mem_clusterIds f incs i hi hcore
  rw [hnil] at hin
  cases hin

theorem clusterIds_disjoint (incs : List Incident)
    (hnd : (incs.map (fun inc => inc.id)).Nodup) (labels : List Int)
    {lab lab2 : Int} (hne : lab ≠ lab2) :
    ∀ a ∈ clusterIds incs labels lab, a ∉ clusterIds incs labels lab2 := by
  intro a h1 h2
  rcases List.mem_map.mp h1 with ⟨m, hm, hid⟩
  rcases List.mem_map.mp h2 with ⟨m2, hm2, hid2⟩
  rcases mem_clusterMembers_elim incs labels lab m hm with ⟨j, hjlt, hmj, _, hj2⟩
  rcases mem_clusterMembers_elim incs labels lab2 m2 hm2 with ⟨k, hklt, hmk, _, hk2⟩
  have hjk : j = k := by
    apply idx_eq_of_nodup_map_id incs hnd hjlt hklt
    rw [← hmj, ← hmk, hid, hid2]
  rw [hjk, hk2] at hj2
  exact hne hj2.symm

theorem runGrouper_eq_fold (f : String → Vec)
    (su : List String → Except String (List (String × String))) (s : GStore) :
    runGrouper (pointwiseEmbed f) su s
      = (nonNoiseLabels (labelsOf ((fetchUnprocessed s).map (vecOf f)))).foldl
          (fun st lab => processCluster su (fetchUnprocessed s)
            (labelsOf ((fetchUnprocessed s).map (vecOf f))) lab st) s := by
  have hvecs : (List.map compositeText (fetchUnprocessed s)).map f
      = (fetchUnprocessed s).map (vecOf f) := by
    rw [List.map_map]
    rfl
  show (nonNoiseLabels (labelsOf ((List.map compositeText (fetchUnprocessed s)).map f))).foldl
      (fun st lab => processCluster su (fetchUnprocessed s)
        (labelsOf ((List.map compositeText (fetchUnprocessed s)).map f)) lab st) s = _
  rw [hvecs]

theorem fetchUnprocessed_ids_nodup (s : GStore)
    (hnd : (s.incident_reports.map (fun inc => inc.id)).Nodup) :
    ((fetchUnprocessed s).map (fun inc => inc.id)).Nodup :=
  ((List.filter_sublist s.incident_reports).map (fun inc => inc.id)).nodup hnd

/-- C4: after a clustering run on a store satisfying the Event invariants,
the invariants still hold: every `final_report` row (old or newly produced)
is nonempty, stores `number_of_reports` equal to the length of its id list,
lists each member once, and all its member ids exist with status
`'grouped'`; and no incident id belongs to two Events. -/
theorem grouper_event_invariant (f : String → Vec)
    (su : List String → Except String (List (String × String))) (s : GStore)
    (hnd : (s.incident_reports.map (fun inc => inc.id)).Nodup)
    (hinv : eventInvariant s) :
    eventInvariant (runGrouper (pointwiseEmbed f) su s) := by
  rw [runGrouper_eq_fold]
  have hndu : ((fetchUnprocessed s).map (fun inc => inc.id)).Nodup :=
    fetchUnprocessed_ids_nodup s hnd
  have hfin := groupFold_final su (fetchUnprocessed s)
    (labelsOf ((fetchUnprocessed s).map (vecOf f)))
    (nonNoiseLabels (labelsOf ((fetchUnprocessed s).map (vecOf f)))) s
  have hinc := groupFold_incidents su (fetchUnprocessed s)
    (labelsOf ((fetchUnprocessed s).map (vecOf f)))
    (nonNoiseLabels (labelsOf ((fetchUnprocessed s).map (vecOf f)))) s
  constructor
  · -- per-event invariants
    intro e he
    rw [hfin] at he
    rcases List.mem_append.mp he with hold | hnew
    · rcases hinv.1 e hold with ⟨hne, hcount, hnodup, hmembers⟩
      refine ⟨hne, hcount, hnodup, ?_⟩
      intro a ha
      rcases hmembers a ha with ⟨inc, hin, hid, hst⟩
      by_cases hcond : ((nonNoiseLabels (labelsOf ((fetchUnprocessed s).map (vecOf f)))).any
          (fun lab => (clusterIds (fetchUnprocessed s)
            (labelsOf ((fetchUnprocessed s).map (vecOf f))) lab).contains inc.id)) = true
      · refine ⟨{ inc with status := "grouped" }, ?_, hid, rfl⟩
        rw [hinc]
        exact List.mem_map.mpr ⟨inc, hin, by rw [if_pos hcond]⟩
      · refine ⟨inc, ?_, hid, hst⟩
        rw [hinc]
        exact List.mem_map.mpr ⟨inc, hin, by rw [if_neg hcond]⟩
    · rcases List.mem_map.mp hnew with ⟨lab, hlab, hev⟩
      rw [← hev]
      refine ⟨clusterIds_ne_nil f (fetchUnprocessed s) lab hlab, rfl,
        clusterIds_nodup (fetchUnprocessed s) hndu _ lab, ?_⟩
      intro a ha
      rcases List.mem_map.mp ha with ⟨m, hm, hid⟩
      rcases mem_clusterMembers_elim (fetchUnprocessed s) _ lab m hm with
        ⟨j, hjlt, hmj, _, _⟩
      have hmem : m ∈ fetchUnprocessed s := by
        rw [hmj]
        exact List.getElem_mem hjlt
      have hmem2 : m ∈ s.incident_reports := (List.mem_filter.mp hmem).1
      refine ⟨{ m with status := "grouped" }, ?_, hid, rfl⟩
      rw [hinc]
      apply List.mem_map.mpr
      refine ⟨m, hmem2, ?_⟩
      have hcond : ((nonNoiseLabels (labelsOf ((fetchUnprocessed s).map (vecOf f)))).any
          (fun lab2 => (clusterIds (fetchUnprocessed s)
            (labelsOf ((fetchUnprocessed s).map (vecOf f))) lab2).contains m.id)) = true := by
        rw [List.any_eq_true]
        refine ⟨lab, hlab, ?_⟩
        have : m.id ∈ clusterIds (fetchUnprocessed s)
            (labelsOf ((fetchUnprocessed s).map (vecOf f))) lab := by
          rw [← hid] at ha
          exact ha
        simpa using this
      rw [if_pos hcond]
  · -- pairwise disjointness
    rw [hfin]
    rw [List.pairwise_append]
    refine ⟨hinv.2, ?_, ?_⟩
    · have hlabsnd : (nonNoiseLabels (labelsOf ((fetchUnprocessed s).map (vecOf f)))).Nodup :=
        (List.nodup_dedup _).filter _
      apply List.Pairwise.map
      · intro lab lab2 hne a ha
        exact clusterIds_disjoint (fetchUnprocessed s) hndu _ hne a ha
      · exact hlabsnd
    · intro e1 h1 e2 h2 a ha
      rcases List.mem_map.mp h2 with ⟨lab, hlab, hev⟩
      rcases hinv.1 e1 h1 with ⟨_, _, _, hmembers⟩
      rcases hmembers a ha with ⟨inc, hin, hid, hst⟩
      rw [← hev]
      intro ha2
      rcases List.mem_map.mp ha2 with ⟨m, hm, hid2⟩
      rcases mem_clusterMembers_elim (fetchUnprocessed s) _ lab m hm with
        ⟨j, hjlt, hmj, _, _⟩
      have hmem : m ∈ fetchUnprocessed s := by
        rw [hmj]
        exact List.getElem_mem hjlt
      have hmf := List.mem_filter.mp hmem
      have heq : inc = m := by
        apply List.inj_on_of_nodup_map hnd hin hmf.1
        rw [hid, hid2]
      have hmu : m.status = "unprocessed" := by simpa using hmf.2
      rw [heq] at hst
      rw [hst] at hmu
      simp at hmu

/-- C4 witness: the Event invariants after running the clustering stage on
the example store (empty `final_report`, three unprocessed reports). -/
theorem grouper_event_invariant_witness :
    (exGStore.incident_reports.map (fun inc => inc.id)).Nodup ∧
    eventInvariant (runGrouper (pointwiseEmbed exEmbed) failSum exGStore) :=
  ⟨by decide,
   grouper_event_invariant exEmbed failSum exGStore (by decide)
     ⟨fun e he => absurd he (List.not_mem_nil e), List.Pairwise.nil⟩⟩

/-- C5: an incident whose embedding is labelled noise (−1) is excluded from
the run: it is still present afterwards with status `'unprocessed'` (so a
future run reconsiders it), every `final_report` row either predates the run
or omits its id, and more generally any fetched incident belonging to no
non-noise cluster is left exactly as it was. -/
theorem noise_points_excluded (f : String → Vec)
    (su : List String → Except String (List (String × String))) (s : GStore)
    (hnd : (s.incident_reports.map (fun inc => inc.id)).Nodup)
    (i : Nat) (hi : i < (fetchUnprocessed s).length)
    (hnoise : labelOf ((fetchUnprocessed s).map (vecOf f)) i = -1) :
    ((fetchUnprocessed s)[i] ∈ (runGrouper (pointwiseEmbed f) su s).incident_reports ∧
     (fetchUnprocessed s)[i].status = "unprocessed") ∧
    (∀ e ∈ (runGrouper (pointwiseEmbed f) su s).final_report,
      e ∈ s.final_report ∨ (fetchUnprocessed s)[i].id ∉ e.source_incident_ids) ∧
    (∀ inc ∈ s.incident_reports,
      (∀ lab ∈ nonNoiseLabels (labelsOf ((fetchUnprocessed s).map (vecOf f))),
        inc.id ∉ clusterIds (fetchUnprocessed s)
          (labelsOf ((fetchUnprocessed s).map (vecOf f))) lab) →
      inc ∈ (runGrouper (pointwiseEmbed f) su s).incident_reports) := by
  have hndu : ((fetchUnprocessed s).map (fun inc => inc.id)).Nodup :=
    fetchUnprocessed_ids_nodup s hnd
  have hno := noise_id_not_mem_clusterIds f (fetchUnprocessed s) hndu i hi hnoise
  have hfin := groupFold_final su (fetchUnprocessed s)
    (labelsOf ((fetchUnprocessed s).map (vecOf f)))
    (nonNoiseLabels (labelsOf ((fetchUnprocessed s).map (vecOf f)))) s
  have hinc := groupFold_incidents su (fetchUnprocessed s)
    (labelsOf ((fetchUnprocessed s).map (vecOf f)))
    (nonNoiseLabels (labelsOf ((fetchUnprocessed s).map (vecOf f)))) s
  have huntouched : ∀ inc ∈ s.incident_reports,
      (∀ lab ∈ nonNoiseLabels (labelsOf ((fetchUnprocessed s).map (vecOf f))),
        inc.id ∉ clusterIds (fetchUnprocessed s)
          (labelsOf ((fetchUnprocessed s).map (vecOf f))) lab) →
      inc ∈ (runGrouper (pointwiseEmbed f) su s).incident_reports := by
    intro inc hin hnot
    rw [runGrouper_eq_fold, hinc]
    have hcond : ¬ ((nonNoiseLabels (labelsOf ((fetchUnprocessed s).map (vecOf f)))).any
        (fun lab => (clusterIds (fetchUnprocessed s)
          (labelsOf ((fetchUnprocessed s).map (vecOf f))) lab).contains inc.id)) = true := by
      intro hany
      rcases List.any_eq_true.mp hany with ⟨lab, hlab, hcont⟩
      exact hnot lab hlab (by simpa using hcont)
    exact List.mem_map.mpr ⟨inc, hin, by rw [if_neg hcond]⟩
  have hmem : (fetchUnprocessed s)[i] ∈ fetchUnprocessed s := List.getElem_mem hi
  have hmf := List.mem_filter.mp hmem
  refine ⟨⟨huntouched _ hmf.1 hno, by simpa using hmf.2⟩, ?_, huntouched⟩
  intro e he
  rw [runGrouper_eq_fold, hfin] at he
  rcases List.mem_append.mp he with hold | hnew
  · exact Or.inl hold
  · rcases List.mem_map.mp hnew with ⟨lab, hlab, hev⟩
    refine Or.inr ?_
    rw [← hev]
    exact hno lab hlab

/-- C5 witness: in the example run the Katpadi Road report (index 2, label
−1) survives unchanged with status `'unprocessed'`. -/
theorem noise_points_excluded_witness :
    labelOf ((fetchUnprocessed exGStore).map (vecOf exEmbed)) 2 = -1 ∧
    (⟨3, "Tree fell on Katpadi Road", "Katpadi Road", "tree fallen", "unprocessed"⟩ : Incident)
      ∈ (runGrouper (pointwiseEmbed exEmbed) failSum exGStore).incident_reports :=
  ⟨by decide,
   (noise_points_excluded exEmbed failSum exGStore (by decide) 2 (by decide) (by decide)).1.1⟩

theorem nonNoiseLabels_nil_of_no_core (pts : List Vec)
    (h : ∀ i, i < pts.length → isCoreIdx pts i = false) :
    nonNoiseLabels (labelsOf pts) = [] := by
  unfold nonNoiseLabels
  rw [List.filter_eq_nil_iff]
  intro lab hlab
  rcases List.mem_map.mp (List.mem_dedup.mp hlab) with ⟨i, hir, hlabel⟩
  have hc := h i (List.mem_range.mp hir)
  rw [(labelOf_eq_neg_one_iff pts i).mpr hc] at hlabel
  simp [← hlabel]

theorem filter_upd_sublist (l : List Incident) (upd : Incident → Incident)
    (h : ∀ inc, (upd inc).status = "unprocessed" → upd inc = inc) :
    ((l.map upd).filter (fun inc => inc.status == "unprocessed")).Sublist
      (l.filter (fun inc => inc.status == "unprocessed")) := by
  induction l with
  | nil => simp
  | cons x xs ih =>
    rw [List.map_cons, List.filter_cons, List.filter_cons]
    by_cases hx : ((upd x).status == "unprocessed") = true
    · have hux : upd x = x := h x (by simpa using hx)
      rw [if_pos hx]
      rw [hux] at hx ⊢
      rw [if_pos hx]
      exact List.Sublist.cons₂ x ih
    · rw [if_neg hx]
      by_cases hx2 : (x.status == "unprocessed") = true
      · rw [if_pos hx2]
        exact List.Sublist.cons x ih
      · rw [if_neg hx2]
        exact ih

theorem runGrouper_idem (f : String → Vec)
    (su : List String → Except String (List (String × String))) (s : GStore)
    (hnd : (s.incident_reports.map (fun inc => inc.id)).Nodup) :
    runGrouper (pointwiseEmbed f) su (runGrouper (pointwiseEmbed f) su s)
      = runGrouper (pointwiseEmbed f) su s := by
  set F := runGrouper (pointwiseEmbed f) su s with hF
  have hFinc : F.incident_reports = s.incident_reports.map (fun inc =>
      if (nonNoiseLabels (labelsOf ((fetchUnprocessed s).map (vecOf f)))).any
        (fun lab => (clusterIds (fetchUnprocessed s)
          (labelsOf ((fetchUnprocessed s).map (vecOf f))) lab).contains inc.id)
      then { inc with status := "grouped" } else inc) := by
    rw [hF, runGrouper_eq_fold, groupFold_incidents]
  have hsub : (fetchUnprocessed F).Sublist (fetchUnprocessed s) := by
    unfold fetchUnprocessed
    rw [hFinc]
    apply filter_upd_sublist
    intro inc hst
    by_cases hcond : ((nonNoiseLabels (labelsOf ((fetchUnprocessed s).map (vecOf f)))).any
        (fun lab => (clusterIds (fetchUnprocessed s)
          (labelsOf ((fetchUnprocessed s).map (vecOf f))) lab).contains inc.id)) = true
    · rw [if_pos hcond] at hst
      simp at hst
    · rw [if_neg hcond]
  have hndF : ((fetchUnprocessed F).map (fun inc => inc.id)).Nodup :=
    ((hsub.map (fun inc => inc.id))).nodup (fetchUnprocessed_ids_nodup s hnd)
  have hnocore : ∀ i, i < ((fetchUnprocessed F).map (vecOf f)).length →
      isCoreIdx ((fetchUnprocessed F).map (vecOf f)) i = false := by
    intro i hlen
    by_contra hcore
    have hcore2 : isCoreIdx ((fetchUnprocessed F).map (vecOf f)) i = true := by
      simpa using hcore
    rcases (isCoreIdx_iff _ i).mp hcore2 with ⟨j, hj, hij, hcos⟩
    have hi2 : i < (fetchUnprocessed F).length := by simpa using hlen
    have hj2 : j < (fetchUnprocessed F).length := by simpa using hj
    rw [vec_getD_map f _ i hi2, vec_getD_map f _ j hj2] at hcos
    have hab : (fetchUnprocessed F)[i].id ≠ (fetchUnprocessed F)[j].id := by
      intro hid
      exact hij (idx_eq_of_nodup_map_id _ hndF hi2 hj2 hid)
    have haF : (fetchUnprocessed F)[i] ∈ fetchUnprocessed F := List.getElem_mem hi2
    have hbF : (fetchUnprocessed F)[j] ∈ fetchUnprocessed F := List.getElem_mem hj2
    have has : (fetchUnprocessed F)[i] ∈ fetchUnprocessed s := hsub.subset haF
    have hbs : (fetchUnprocessed F)[j] ∈ fetchUnprocessed s := hsub.subset hbF
    rcases List.mem_iff_getElem.mp has with ⟨ia, hia, hva⟩
    rcases List.mem_iff_getElem.mp hbs with ⟨ib, hib, hvb⟩
    have hiaib : ia ≠ ib := by
      intro hq
      apply hab
      rw [← hva, ← hvb]
      subst hq
      rfl
    have hcore1 : isCoreIdx ((fetchUnprocessed s).map (vecOf f)) ia = true := by
      rw [isCoreIdx_iff]
      refine ⟨ib, by simpa using hib, hiaib, ?_⟩
      rw [vec_getD_map f _ ia hia, vec_getD_map f _ ib hib, hva, hvb]
      exact hcos
    have hmemlab := mem_nonNoiseLabels_of_core ((fetchUnprocessed s).map (vecOf f)) ia
      (by simpa using hia) hcore1
    have hidmem := core_id_mem_clusterIds f (fetchUnprocessed s) ia hia hcore1
    rw [hva] at hidmem
    have haFm := List.mem_filter.mp haF
    rw [hFinc] at haFm
    rcases List.mem_map.mp haFm.1 with ⟨inc0, hin0, hup⟩
    by_cases hcond : ((nonNoiseLabels (labelsOf ((fetchUnprocessed s).map (vecOf f)))).any
        (fun lab => (clusterIds (fetchUnprocessed s)
          (labelsOf ((fetchUnprocessed s).map (vecOf f))) lab).contains inc0.id)) = true
    · rw [if_pos hcond] at hup
      have hga : (fetchUnprocessed F)[i].status = "grouped" := by rw [← hup]
      have hua : (fetchUnprocessed F)[i].status = "unprocessed" := by simpa using haFm.2
      rw [hga] at hua
      simp at hua
    · rw [if_neg hcond] at hup
      apply hcond
      rw [List.any_eq_true]
      refine ⟨labelOf ((fetchUnprocessed s).map (vecOf f)) ia, hmemlab, ?_⟩
      rw [hup]
      simpa using hidmem
  rw [runGrouper_eq_fold f su F, nonNoiseLabels_nil_of_no_core _ hnocore]
  exact List.foldl_nil

theorem foldl_const_of_id {α β : Type} (step : β → α → β) :
    ∀ (l : List α) (s : β), (∀ t ∈ l, ∀ st, step st t = st) → l.foldl step s = s := by
  intro l
  induction l with
  | nil => intro s _; rfl
  | cons t rest ih =>
    intro s h
    rw [List.foldl_cons, h t (List.mem_cons_self t rest) s]
    exact ih s (fun t2 ht2 st => h t2 (List.mem_cons_of_mem t ht2) st)

theorem classifierStep_tweets (c : String → Option (List (String × String)))
    (s : CStore) (t : Tweet) :
    (classifierStep c s t).tweets = update_tweet_status s.tweets t.id := by
  simp only [classifierStep]
  by_cases hcl : (classify_text c t.text == "Actionable") = true
  · rw [if_pos hcl]
  · rw [if_neg hcl]

theorem classifierFold_tweets (c : String → Option (List (String × String))) :
    ∀ (l : List Tweet) (s : CStore),
      (∀ tw ∈ s.tweets, tw.status = "unclassified" → tw.id ∈ l.map (fun t2 => t2.id)) →
      ∀ tw ∈ (l.foldl (classifierStep c) s).tweets, tw.status ≠ "unclassified" := by
  intro l
  induction l with
  | nil =>
    intro s hs tw htw hst
    have h2 := hs tw htw hst
    simp at h2
  | cons t rest ih =>
    intro s hs tw htw
    rw [List.foldl_cons] at htw
    refine ih (classifierStep c s t) ?_ tw htw
    intro tw2 htw2 hst2
    rw [classifierStep_tweets] at htw2
    unfold update_tweet_status at htw2
    rcases List.mem_map.mp htw2 with ⟨tw0, h0, hup⟩
    by_cases hid : (tw0.id == t.id) = true
    · rw [if_pos hid] at hup
      rw [← hup] at hst2
      simp at hst2
    · rw [if_neg hid] at hup
      rw [← hup] at hst2 ⊢
      have h3 := hs tw0 h0 hst2
      rw [List.map_cons] at h3
      rcases List.mem_cons.mp h3 with heq | hmem
      · exact absurd heq (by simpa using hid)
      · exact hmem

theorem runClassifier_idem (c : String → Option (List (String × String))) (s : CStore) :
    runClassifier c (runClassifier c s) = runClassifier c s := by
  have hall : ∀ tw ∈ (runClassifier c s).tweets, tw.status ≠ "unclassified" := by
    apply classifierFold_tweets c (classifierItems s) s
    intro tw htw hst
    apply List.mem_map.mpr
    refine ⟨tw, ?_, rfl⟩
    unfold classifierItems
    exact List.mem_filter.mpr ⟨htw, by simpa using hst⟩
  have hnone : classifierItems (runClassifier c s) = [] := by
    unfold classifierItems
    rw [List.filter_eq_nil_iff]
    intro tw htw hbeq
    exact hall tw htw (by simpa using hbeq)
  show (classifierItems (runClassifier c s)).foldl (classifierStep c) (runClassifier c s)
      = runClassifier c s
  rw [hnone]
  exact List.foldl_nil

theorem extractorStep_cases (o : String → Option (List (String × String)))
    (s : EStore) (t : Tweet) :
    (o t.text = none ∧ extractorStep o s t = s) ∨
    (∃ kvs, o t.text = some kvs ∧ kvs.isEmpty = true ∧ extractorStep o s t = s) ∨
    (∃ kvs, o t.text = some kvs ∧ kvs.isEmpty = false ∧
      extractorStep o s t
        = ⟨s.tweets, insert_incident_report s.incident_reports (mkReport t kvs)⟩) := by
  unfold extractorStep
  cases ho : o t.text with
  | none => exact Or.inl ⟨rfl, rfl⟩
  | some kvs =>
    by_cases hk : kvs.isEmpty = true
    · refine Or.inr (Or.inl ⟨kvs, rfl, hk, ?_⟩)
      show (if kvs.isEmpty = true then s
        else (⟨s.tweets, insert_incident_report s.incident_reports (mkReport t kvs)⟩ : EStore)) = s
      rw [if_pos hk]
    · refine Or.inr (Or.inr ⟨kvs, rfl, by simpa using hk, ?_⟩)
      show (if kvs.isEmpty = true then s
        else (⟨s.tweets, insert_incident_report s.incident_reports (mkReport t kvs)⟩ : EStore))
        = (⟨s.tweets, insert_incident_report s.incident_reports (mkReport t kvs)⟩ : EStore)
      rw [if_neg hk]

theorem mem_insert_incident_report (tbl : List IncidentRow) (r q : IncidentRow)
    (h : q ∈ tbl) : q ∈ insert_incident_report tbl r := by
  unfold insert_incident_report
  by_cases hex : (tbl.any fun p => p.original_tweet_id == r.original_tweet_id) = true
  · rw [if_pos hex]; exact h
  · rw [if_neg hex]; exact List.mem_append_left _ h

theorem mem_insert_incident_report_elim (tbl : List IncidentRow) (r q : IncidentRow)
    (h : q ∈ insert_incident_report tbl r) : q ∈ tbl ∨ q = r := by
  unfold insert_incident_report at h
  by_cases hex : (tbl.any fun p => p.original_tweet_id == r.original_tweet_id) = true
  · rw [if_pos hex] at h; exact Or.inl h
  · rw [if_neg hex] at h
    rcases List.mem_append.mp h with h1 | h2
    · exact Or.inl h1
    · exact Or.inr (List.mem_singleton.mp h2)

theorem insert_incident_report_id_present (tbl : List IncidentRow) (r : IncidentRow) :
    ∃ q ∈ insert_incident_report tbl r, q.original_tweet_id = r.original_tweet_id := by
  unfold insert_incident_report
  by_cases hex : (tbl.any fun p => p.original_tweet_id == r.original_tweet_id) = true
  · rw [if_pos hex]
    rcases List.any_eq_true.mp hex with ⟨q, hq, hqid⟩
    exact ⟨q, hq, by simpa using hqid⟩
  · rw [if_neg hex]
    exact ⟨r, List.mem_append_right _ (List.mem_singleton.mpr rfl), rfl⟩

theorem extractorFold_tweets (o : String → Option (List (String × String))) :
    ∀ (l : List Tweet) (s : EStore), (l.foldl (extractorStep o) s).tweets = s.tweets := by
  intro l
  induction l with
  | nil => intro s; rfl
  | cons t rest ih =>
    intro s
    rw [List.foldl_cons, ih]
    rcases extractorStep_cases o s t with ⟨_, he⟩ | ⟨kvs, _, _, he⟩ | ⟨kvs, _, _, he⟩ <;>
      rw [he]

theorem extractorFold_reports_mono (o : String → Option (List (String × String))) :
    ∀ (l : List Tweet) (s : EStore) (r : IncidentRow),
      r ∈ s.incident_reports → r ∈ (l.foldl (extractorStep o) s).incident_reports := by
  intro l
  induction l with
  | nil => intro s r hr; exact hr
  | cons t rest ih =>
    intro s r hr
    rw [List.foldl_cons]
    apply ih
    rcases extractorStep_cases o s t with ⟨_, he⟩ | ⟨kvs, _, _, he⟩ | ⟨kvs, _, _, he⟩ <;>
      rw [he]
    · exact hr
    · exact hr
    · exact mem_insert_incident_report s.incident_reports (mkReport t kvs) r hr

theorem extractorFold_reports_new (o : String → Option (List (String × String))) :
    ∀ (l : List Tweet) (s : EStore) (r : IncidentRow),
      r ∈ (l.foldl (extractorStep o) s).incident_reports →
      r ∈ s.incident_reports ∨
      ∃ t ∈ l, ∃ kvs, o t.text = some kvs ∧ kvs.isEmpty = false ∧ r = mkReport t kvs := by
  intro l
  induction l with
  | nil => intro s r hr; exact Or.inl hr
  | cons t rest ih =>
    intro s r hr
    rw [List.foldl_cons] at hr
    rcases ih (extractorStep o s t) r hr with hin | ⟨t2, ht2, kvs, hkvs⟩
    · rcases extractorStep_cases o s t with ⟨_, he⟩ | ⟨kvs, _, _, he⟩ | ⟨kvs, ho, hk, he⟩
      · rw [he] at hin; exact Or.inl hin
      · rw [he] at hin; exact Or.inl hin
      · rw [he] at hin
        rcases mem_insert_incident_report_elim s.incident_reports (mkReport t kvs) r hin with
          h1 | h2
        · exact Or.inl h1
        · exact Or.inr ⟨t, List.mem_cons_self t rest, kvs, ho, hk, h2⟩
    · exact Or.inr ⟨t2, List.mem_cons_of_mem t ht2, kvs, hkvs⟩

theorem extractorFold_success_present (o : String → Option (List (String × String))) :
    ∀ (l : List Tweet) (s : EStore) (t : Tweet) (kvs : List (String × String)),
      t ∈ l → o t.text = some kvs → kvs.isEmpty = false →
      ∃ r ∈ (l.foldl (extractorStep o) s).incident_reports, r.original_tweet_id = t.id := by
  intro l
  induction l with
  | nil => intro s t kvs ht; cases ht
  | cons t2 rest ih =>
    intro s t kvs ht ho hk
    rw [List.foldl_cons]
    rcases List.mem_cons.mp ht with rfl | hmem
    · rcases extractorStep_cases o s t with ⟨ho2, he⟩ | ⟨kvs2, ho2, hk2, he⟩ |
        ⟨kvs2, ho2, hk2, he⟩
      · rw [ho] at ho2; cases ho2
      · rw [ho] at ho2
        injection ho2 with hkk
        rw [← hkk] at hk2
        rw [hk2] at hk
        cases hk
      · rw [he]
        rcases insert_incident_report_id_present s.incident_reports (mkReport t kvs2) with
          ⟨q, hq, hqid⟩
        exact ⟨q, extractorFold_reports_mono o rest _ q hq, hqid⟩
    · exact ih (extractorStep o s t2) t kvs hmem ho hk

theorem runExtractor_idem (o : String → Option (List (String × String))) (s : EStore) :
    runExtractor o (runExtractor o s) = runExtractor o s := by
  have hsteps : ∀ t ∈ extractorItems (runExtractor o s), ∀ st : EStore,
      extractorStep o st t = st := by
    intro t ht st
    have htf := List.mem_filter.mp ht
    rcases extractorStep_cases o st t with ⟨_, he⟩ | ⟨kvs, _, _, he⟩ | ⟨kvs, ho, hk, he⟩
    · exact he
    · exact he
    · exfalso
      -- a successful nonempty extraction means a report with this id exists after run 1
      have htweets : (runExtractor o s).tweets = s.tweets := extractorFold_tweets o _ s
      have hts : t ∈ s.tweets := by rw [← htweets]; exact htf.1
      have hfalse : ((runExtractor o s).incident_reports.any
          fun r => r.original_tweet_id == t.id) = false := by
        simpa using htf.2
      have hnone2 := List.any_eq_false.mp hfalse
      have hnos : ¬ (s.incident_reports.any fun q => q.original_tweet_id == t.id) = true := by
        intro hany
        rcases List.any_eq_true.mp hany with ⟨q, hq, hqid⟩
        have hq2 : q ∈ (runExtractor o s).incident_reports :=
          extractorFold_reports_mono o _ s q hq
        exact hnone2 q hq2 hqid
      have htitems : t ∈ extractorItems s := by
        unfold extractorItems
        refine List.mem_filter.mpr ⟨hts, ?_⟩
        simpa using hnos
      rcases extractorFold_success_present o (extractorItems s) s t kvs htitems ho hk with
        ⟨r, hr, hrid⟩
      exact hnone2 r hr (by simpa using hrid)
  show (extractorItems (runExtractor o s)).foldl (extractorStep o) (runExtractor o s)
      = runExtractor o s
  exact foldl_const_of_id (extractorStep o) _ _ hsteps

theorem geocoderStep_cases (g : String → Option (ℚ × ℚ)) (s : GeoStore) (e : FinalReportRow) :
    (g (e.event_location ++ ", Vellore") = none ∧ geocoderStep g s e = s) ∨
    (∃ la lo, g (e.event_location ++ ", Vellore") = some (la, lo) ∧
      geocoderStep g s e
        = ⟨s.final_report, insert_geocoded_report s.geocoded_tweets
            ⟨e.id, some la, some lo, e.event_summary, e.event_location,
              e.number_of_reports, "reported"⟩⟩) := by
  unfold geocoderStep
  cases hg : g (e.event_location ++ ", Vellore") with
  | none => exact Or.inl ⟨rfl, rfl⟩
  | some p => exact Or.inr ⟨p.1, p.2, rfl, rfl⟩

theorem mem_insert_geocoded_report (tbl : List GeoRow) (r q : GeoRow)
    (h : q ∈ tbl) : q ∈ insert_geocoded_report tbl r := by
  unfold insert_geocoded_report
  by_cases hex : (tbl.any fun p => p.source_report_id == r.source_report_id) = true
  · rw [if_pos hex]; exact h
  · rw [if_neg hex]; exact List.mem_append_left _ h

theorem insert_geocoded_report_id_present (tbl : List GeoRow) (r : GeoRow) :
    ∃ q ∈ insert_geocoded_report tbl r, q.source_report_id = r.source_report_id := by
  unfold insert_geocoded_report
  by_cases hex : (tbl.any fun p => p.source_report_id == r.source_report_id) = true
  · rw [if_pos hex]
    rcases List.any_eq_true.mp hex with ⟨q, hq, hqid⟩
    exact ⟨q, hq, by simpa using hqid⟩
  · rw [if_neg hex]
    exact ⟨r, List.mem_append_right _ (List.mem_singleton.mpr rfl), rfl⟩

theorem geocoderFold_final (g : String → Option (ℚ × ℚ)) :
    ∀ (l : List FinalReportRow) (s : GeoStore),
      (l.foldl (geocoderStep g) s).final_report = s.final_report := by
  intro l
  induction l with
  | nil => intro s; rfl
  | cons e rest ih =>
    intro s
    rw [List.foldl_cons, ih]
    rcases geocoderStep_cases g s e with ⟨_, he⟩ | ⟨la, lo, _, he⟩ <;> rw [he]

theorem geocoderFold_rows_mono (g : String → Option (ℚ × ℚ)) :
    ∀ (l : List FinalReportRow) (s : GeoStore) (r : GeoRow),
      r ∈ s.geocoded_tweets → r ∈ (l.foldl (geocoderStep g) s).geocoded_tweets := by
  intro l
  induction l with
  | nil => intro s r hr; exact hr
  | cons e rest ih =>
    intro s r hr
    rw [List.foldl_cons]
    apply ih
    rcases geocoderStep_cases g s e with ⟨_, he⟩ | ⟨la, lo, _, he⟩ <;> rw [he]
    · exact hr
    · exact mem_insert_geocoded_report s.geocoded_tweets _ r hr

theorem geocoderFold_success_present (g : String → Option (ℚ × ℚ)) :
    ∀ (l : List FinalReportRow) (s : GeoStore) (e : FinalReportRow) (la lo : ℚ),
      e ∈ l → g (e.event_location ++ ", Vellore") = some (la, lo) →
      ∃ r ∈ (l.foldl (geocoderStep g) s).geocoded_tweets, r.source_report_id = e.id := by
  intro l
  induction l with
  | nil => intro s e la lo he; cases he
  | cons e2 rest ih =>
    intro s e la lo he hg
    rw [List.foldl_cons]
    rcases List.mem_cons.mp he with rfl | hmem
    · rcases geocoderStep_cases g s e with ⟨hg2, he2⟩ | ⟨la2, lo2, hg2, he2⟩
      · rw [hg] at hg2; cases hg2
      · rw [he2]
        rcases insert_geocoded_report_id_present s.geocoded_tweets
          ⟨e.id, some la2, some lo2, e.event_summary, e.event_location,
            e.number_of_reports, "reported"⟩ with ⟨q, hq, hqid⟩
        exact ⟨q, geocoderFold_rows_mono g rest _ q hq, hqid⟩
    · exact ih (geocoderStep g s e2) e la lo hmem hg

theorem runGeocoder_idem (g : String → Option (ℚ × ℚ)) (s : GeoStore) :
    runGeocoder g (runGeocoder g s) = runGeocoder g s := by
  have hsteps : ∀ e ∈ geocoderItems (runGeocoder g s), ∀ st : GeoStore,
      geocoderStep g st e = st := by
    intro e he st
    have hef := List.mem_filter.mp he
    rcases geocoderStep_cases g st e with ⟨_, he2⟩ | ⟨la, lo, hg, he2⟩
    · exact he2
    · exfalso
      have hfalse : ((runGeocoder g s).geocoded_tweets.any
          fun r => r.source_report_id == e.id) = false := by
        simpa using hef.2
      have hnone2 := List.any_eq_false.mp hfalse
      have hfinal : (runGeocoder g s).final_report = s.final_report :=
        geocoderFold_final g _ s
      have hes : e ∈ s.final_report := by rw [← hfinal]; exact hef.1
      have hnos : ¬ (s.geocoded_tweets.any fun q => q.source_report_id == e.id) = true := by
        intro hany
        rcases List.any_eq_true.mp hany with ⟨q, hq, hqid⟩
        exact hnone2 q (geocoderFold_rows_mono g _ s q hq) hqid
      have heitems : e ∈ geocoderItems s := by
        unfold geocoderItems
        refine List.mem_filter.mpr ⟨hes, ?_⟩
        simpa using hnos
      rcases geocoderFold_success_present g (geocoderItems s) s e la lo heitems hg with
        ⟨r, hr, hrid⟩
      exact hnone2 r hr (by simpa using hrid)
  show (geocoderItems (runGeocoder g s)).foldl (geocoderStep g) (runGeocoder g s)
      = runGeocoder g s
  exact foldl_const_of_id (geocoderStep g) _ _ hsteps

/-- C3: every stage is idempotent on an unchanged store with deterministic
collaborators: a second run of the classifier, extractor, clustering or
geocoding stage inserts no additional derived rows and leaves every status
unchanged (the stores are equal).  The embedding collaborator is the
per-text batch embedder and the clustering store satisfies the
`incident_reports` primary-key uniqueness. -/
theorem stages_idempotent
    (c o : String → Option (List (String × String)))
    (g : String → Option (ℚ × ℚ)) (f : String → Vec)
    (su : List String → Except String (List (String × String)))
    (s1 : CStore) (s2 : EStore) (s3 : GStore) (s4 : GeoStore)
    (hnd : (s3.incident_reports.map (fun inc => inc.id)).Nodup) :
    runClassifier c (runClassifier c s1) = runClassifier c s1 ∧
    runExtractor o (runExtractor o s2) = runExtractor o s2 ∧
    runGrouper (pointwiseEmbed f) su (runGrouper (pointwiseEmbed f) su s3)
      = runGrouper (pointwiseEmbed f) su s3 ∧
    runGeocoder g (runGeocoder g s4) = runGeocoder g s4 :=
  ⟨runClassifier_idem c s1, runExtractor_idem o s2, runGrouper_idem f su s3 hnd,
   runGeocoder_idem g s4⟩

/-- C3 witness: idempotence evaluated on concrete one-item stores, with the
classifier conclusion checked on its store. -/
theorem stages_idempotent_witness :
    (exGStore.incident_reports.map (fun inc => inc.id)).Nodup ∧
    runClassifier actionKV (runClassifier actionKV exCStore) = runClassifier actionKV exCStore ∧
    runGeocoder constGeo (runGeocoder constGeo exGeoStore) = runGeocoder constGeo exGeoStore :=
  ⟨by decide,
   (stages_idempotent actionKV failKV constGeo exEmbed failSum exCStore exEStore exGStore
      exGeoStore (by decide)).1,
   (stages_idempotent actionKV failKV constGeo exEmbed failSum exCStore exEStore exGStore
      exGeoStore (by decide)).2.2.2⟩

theorem processorStep_tweets (o c : String → Option (List (String × String)))
    (s : PStore) (t : Tweet) :
    (processorStep o c s t).tweets = s.tweets.map (fun tw =>
      if tw.id == t.id then { tw with status := "processed" } else tw) := by
  simp only [processorStep]
  cases ho : o t.text with
  | none =>
    dsimp only
    by_cases hcl : (classify_text c t.text == "Actionable") = true
    · rw [if_pos hcl]
    · rw [if_neg hcl]
  | some kvs =>
    dsimp only
    by_cases hk : kvs.isEmpty = true
    · rw [if_pos hk]
      by_cases hcl : (classify_text c t.text == "Actionable") = true
      · rw [if_pos hcl]
      · rw [if_neg hcl]
    · rw [if_neg hk]
      by_cases hcl : (classify_text c t.text == "Actionable") = true
      · rw [if_pos hcl]
      · rw [if_neg hcl]

theorem processorStep_reports (o c : String → Option (List (String × String)))
    (s : PStore) (t : Tweet) :
    (processorStep o c s t).incident_reports = s.incident_reports ∨
    ∃ kvs, o t.text = some kvs ∧ kvs.isEmpty = false ∧
      (processorStep o c s t).incident_reports
        = insert_incident_report s.incident_reports (mkReport t kvs) := by
  simp only [processorStep]
  cases ho : o t.text with
  | none =>
    left
    dsimp only
    by_cases hcl : (classify_text c t.text == "Actionable") = true
    · rw [if_pos hcl]
    · rw [if_neg hcl]
  | some kvs =>
    dsimp only
    by_cases hk : kvs.isEmpty = true
    · left
      rw [if_pos hk]
      by_cases hcl : (classify_text c t.text == "Actionable") = true
      · rw [if_pos hcl]
      · rw [if_neg hcl]
    · right
      refine ⟨kvs, rfl, by simpa using hk, ?_⟩
      rw [if_neg hk]
      by_cases hcl : (classify_text c t.text == "Actionable") = true
      · rw [if_pos hcl]
      · rw [if_neg hcl]

theorem processorStep_actionable (o c : String → Option (List (String × String)))
    (s : PStore) (t : Tweet) :
    (processorStep o c s t).actionable_tweets = s.actionable_tweets ∨
    (classify_text c t.text = "Actionable" ∧
      (processorStep o c s t).actionable_tweets
        = insert_actionable_tweet s.actionable_tweets t.text t.id) := by
  simp only [processorStep]
  by_cases hcl : (classify_text c t.text == "Actionable") = true
  · right
    refine ⟨by simpa using hcl, ?_⟩
    cases ho : o t.text with
    | none =>
      dsimp only
      rw [if_pos hcl]
    | some kvs =>
      dsimp only
      by_cases hk : kvs.isEmpty = true
      · rw [if_pos hk, if_pos hcl]
      · rw [if_neg hk, if_pos hcl]
  · left
    cases ho : o t.text with
    | none =>
      dsimp only
      rw [if_neg hcl]
    | some kvs =>
      dsimp only
      by_cases hk : kvs.isEmpty = true
      · rw [if_pos hk, if_neg hcl]
      · rw [if_neg hk, if_neg hcl]

theorem processorFold_status_stable (o c : String → Option (List (String × String)))
    (n : Nat) :
    ∀ (l : List Tweet) (s : PStore),
      (∀ tw ∈ s.tweets, tw.id = n → tw.status = "processed") →
      ∀ tw ∈ (l.foldl (processorStep o c) s).tweets, tw.id = n → tw.status = "processed" := by
  intro l
  induction l with
  | nil => intro s hs; exact hs
  | cons t rest ih =>
    intro s hs
    rw [List.foldl_cons]
    apply ih
    intro tw htw hid
    rw [processorStep_tweets] at htw
    rcases List.mem_map.mp htw with ⟨tw0, h0, hup⟩
    by_cases hb : (tw0.id == t.id) = true
    · rw [if_pos hb] at hup
      rw [← hup]
    · rw [if_neg hb] at hup
      rw [← hup] at hid ⊢
      exact hs tw0 h0 hid

theorem processorFold_status_est (o c : String → Option (List (String × String))) :
    ∀ (l : List Tweet) (s : PStore) (t : Tweet), t ∈ l →
      ∀ tw ∈ (l.foldl (processorStep o c) s).tweets, tw.id = t.id →
        tw.status = "processed" := by
  intro l
  induction l with
  | nil => intro s t ht; cases ht
  | cons t2 rest ih =>
    intro s t ht
    rcases List.mem_cons.mp ht with heq | hmem
    · rw [List.foldl_cons]
      apply processorFold_status_stable o c t.id rest (processorStep o c s t2)
      intro tw htw hid
      rw [processorStep_tweets] at htw
      rcases List.mem_map.mp htw with ⟨tw0, h0, hup⟩
      by_cases hb : (tw0.id == t2.id) = true
      · rw [if_pos hb] at hup
        rw [← hup]
      · rw [if_neg hb] at hup
        rw [← hup] at hid
        rw [heq] at hid
        exact absurd hid (by simpa using hb)
    · rw [List.foldl_cons]
      exact ih (processorStep o c s t2) t hmem

theorem processorFold_reports_new (o c : String → Option (List (String × String))) :
    ∀ (l : List Tweet) (s : PStore) (r : IncidentRow),
      r ∈ (l.foldl (processorStep o c) s).incident_reports →
      r ∈ s.incident_reports ∨
      ∃ t ∈ l, r.original_tweet_id = t.id ∧
        ∃ kvs, o t.text = some kvs ∧ kvs.isEmpty = false := by
  intro l
  induction l with
  | nil => intro s r hr; exact Or.inl hr
  | cons t rest ih =>
    intro s r hr
    rw [List.foldl_cons] at hr
    rcases ih (processorStep o c s t) r hr with hin | ⟨t2, ht2, hq⟩
    · rcases processorStep_reports o c s t with heq | ⟨kvs, ho, hk, heq⟩
      · rw [heq] at hin
        exact Or.inl hin
      · rw [heq] at hin
        rcases mem_insert_incident_report_elim s.incident_reports (mkReport t kvs) r hin with
          h1 | h2
        · exact Or.inl h1
        · exact Or.inr ⟨t, List.mem_cons_self t rest, by rw [h2]; rfl, kvs, ho, hk⟩
    · exact Or.inr ⟨t2, List.mem_cons_of_mem t ht2, hq⟩

theorem mem_insert_actionable_tweet_elim (tbl : List ActionableRow) (txt : String)
    (sid : Nat) (a : ActionableRow) (h : a ∈ insert_actionable_tweet tbl txt sid) :
    a ∈ tbl ∨ a = ⟨sid, txt⟩ := by
  unfold insert_actionable_tweet at h
  by_cases hex : (tbl.any fun r2 => r2.source_tweet_id == sid) = true
  · rw [if_pos hex] at h
    exact Or.inl h
  · rw [if_neg hex] at h
    rcases List.mem_append.mp h with h1 | h2
    · exact Or.inl h1
    · exact Or.inr (List.mem_singleton.mp h2)

theorem processorFold_actionable_new (o c : String → Option (List (String × String))) :
    ∀ (l : List Tweet) (s : PStore) (a : ActionableRow),
      a ∈ (l.foldl (processorStep o c) s).actionable_tweets →
      a ∈ s.actionable_tweets ∨
      ∃ t ∈ l, a.source_tweet_id = t.id ∧ classify_text c t.text = "Actionable" := by
  intro l
  induction l with
  | nil => intro s a ha; exact Or.inl ha
  | cons t rest ih =>
    intro s a ha
    rw [List.foldl_cons] at ha
    rcases ih (processorStep o c s t) a ha with hin | ⟨t2, ht2, hq⟩
    · rcases processorStep_actionable o c s t with heq | ⟨hcl, heq⟩
      · rw [heq] at hin
        exact Or.inl hin
      · rw [heq] at hin
        rcases mem_insert_actionable_tweet_elim s.actionable_tweets t.text t.id a hin with
          h1 | h2
        · exact Or.inl h1
        · exact Or.inr ⟨t, List.mem_cons_self t rest, by rw [h2], hcl⟩
    · exact Or.inr ⟨t2, List.mem_cons_of_mem t ht2, hq⟩

theorem extractor_failed_item_retried (o : String → Option (List (String × String)))
    (s : EStore) (t : Tweet)
    (hnd : (s.tweets.map (fun tw => tw.id)).Nodup)
    (ht : t ∈ extractorItems s) (ho : o t.text = none) :
    (∀ r ∈ (runExtractor o s).incident_reports,
      r.original_tweet_id = t.id → r ∈ s.incident_reports) ∧
    t ∈ extractorItems (runExtractor o s) := by
  have htf := List.mem_filter.mp ht
  have hanyfalse : (s.incident_reports.any fun r => r.original_tweet_id == t.id) = false := by
    have h2 := htf.2
    simp only [Bool.not_eq_true'] at h2
    exact h2
  have hnor := List.any_eq_false.mp hanyfalse
  have hpart1 : ∀ r ∈ (runExtractor o s).incident_reports,
      r.original_tweet_id = t.id → r ∈ s.incident_reports := by
    intro r hr hid
    rcases extractorFold_reports_new o (extractorItems s) s r hr with hin | ⟨t2, ht2, kvs, ho2, _, hrm⟩
    · exact hin
    · exfalso
      have hid2 : t2.id = t.id := by
        rw [← hid, hrm]
        rfl
      have ht2s : t2 ∈ s.tweets := (List.mem_filter.mp ht2).1
      have : t2 = t := List.inj_on_of_nodup_map hnd ht2s htf.1 hid2
      rw [this] at ho2
      rw [ho] at ho2
      cases ho2
  refine ⟨hpart1, ?_⟩
  unfold extractorItems
  refine List.mem_filter.mpr ⟨?_, ?_⟩
  · show t ∈ (runExtractor o s).tweets
    rw [show (runExtractor o s).tweets = s.tweets from extractorFold_tweets o _ s]
    exact htf.1
  · have : ¬ ((runExtractor o s).incident_reports.any
        fun r => r.original_tweet_id == t.id) = true := by
      intro hany
      rcases List.any_eq_true.mp hany with ⟨r, hr, hrid⟩
      have hrid2 : r.original_tweet_id = t.id := by simpa using hrid
      exact hnor r (hpart1 r hr hrid2) hrid
    simpa using this

theorem extractor_success_row_written (o : String → Option (List (String × String)))
    (s : EStore) (t : Tweet) (kvs : List (String × String))
    (hnd : (s.tweets.map (fun tw => tw.id)).Nodup)
    (ht : t ∈ extractorItems s) (ho : o t.text = some kvs) (hk : kvs.isEmpty = false) :
    mkReport t kvs ∈ (runExtractor o s).incident_reports ∧
    t ∉ extractorItems (runExtractor o s) := by
  have htf := List.mem_filter.mp ht
  have hanyfalse : (s.incident_reports.any fun r => r.original_tweet_id == t.id) = false := by
    have h2 := htf.2
    simp only [Bool.not_eq_true'] at h2
    exact h2
  have hnor := List.any_eq_false.mp hanyfalse
  have hndi : ((extractorItems s).map (fun tw => tw.id)).Nodup :=
    ((List.filter_sublist s.tweets).map (fun tw => tw.id)).nodup hnd
  rcases List.append_of_mem ht with ⟨l1, l2, hsplit⟩
  have hnotl1 : t.id ∉ l1.map (fun tw => tw.id) := by
    have h3 : ((l1 ++ t :: l2).map (fun tw => tw.id)).Nodup := by
      rw [← hsplit]
      exact hndi
    rw [List.map_append, List.map_cons] at h3
    have hd := (List.nodup_append.mp h3).2.2
    intro hmem
    exact hd hmem (List.mem_cons_self _ _)
  have hmid : ∀ r ∈ (l1.foldl (extractorStep o) s).incident_reports,
      r.original_tweet_id ≠ t.id := by
    intro r hr hid
    rcases extractorFold_reports_new o l1 s r hr with hin | ⟨t2, ht2, kvs2, _, _, hrm⟩
    · exact hnor r hin (by simpa using hid)
    · apply hnotl1
      rw [← hid, hrm]
      exact List.mem_map.mpr ⟨t2, ht2, rfl⟩
  have hrun : runExtractor o s
      = l2.foldl (extractorStep o) (extractorStep o (l1.foldl (extractorStep o) s) t) := by
    show (extractorItems s).foldl (extractorStep o) s = _
    rw [hsplit, List.foldl_append, List.foldl_cons]
  have hstep : mkReport t kvs
      ∈ (extractorStep o (l1.foldl (extractorStep o) s) t).incident_reports := by
    rcases extractorStep_cases o (l1.foldl (extractorStep o) s) t with
      ⟨ho2, _⟩ | ⟨kvs2, ho2, hk2, _⟩ | ⟨kvs2, ho2, hk2, he⟩
    · rw [ho] at ho2; cases ho2
    · rw [ho] at ho2
      injection ho2 with hkk
      rw [← hkk] at hk2
      rw [hk2] at hk
      cases hk
    · rw [ho] at ho2
      injection ho2 with hkk
      rw [he]
      show mkReport t kvs ∈ insert_incident_report
        (l1.foldl (extractorStep o) s).incident_reports (mkReport t kvs2)
      rw [← hkk]
      unfold insert_incident_report
      have hnone : ((l1.foldl (extractorStep o) s).incident_reports.any
          fun p => p.original_tweet_id == (mkReport t kvs).original_tweet_id) = false := by
        rw [List.any_eq_false]
        intro p hp hbeq
        exact hmid p hp (by simpa using hbeq)
      rw [if_neg (by rw [hnone]; exact Bool.false_ne_true)]
      exact List.mem_append_right _ (List.mem_singleton.mpr rfl)
  have hfinal : mkReport t kvs ∈ (runExtractor o s).incident_reports := by
    rw [hrun]
    exact extractorFold_reports_mono o l2 _ _ hstep
  refine ⟨hfinal, ?_⟩
  intro hin2
  have h4 := (List.mem_filter.mp hin2).2
  simp only [Bool.not_eq_true'] at h4
  have h5 := List.any_eq_false.mp h4
  exact h5 (mkReport t kvs) hfinal (beq_self_eq_true t.id)

/-- C7 counterexample: when the extraction response is unparseable the
wrapper returns `None`, no `incident_reports` row is written at all
(no sentinel substitution happens), and the item is still selected on the
next run — contradicting "the derived IncidentReport row is still written,
and the item IS advanced". -/
theorem unparseable_response_writes_no_row :
    (runExtractor failKV exEStore).incident_reports = [] ∧
    extractorItems (runExtractor failKV exEStore)
      = [⟨1, "Tree down in Viruthampet", "unclassified"⟩] := by
  constructor <;> rfl

/-- C7 amended: sentinel substitution only happens for a response that
parses to a *nonempty* JSON object: each missing field defaults to
`"Extraction Failed"`, the row is written and the item is advanced (not
reselected).  An unparseable response yields no row for the item, which is
selected again on the next run. -/
theorem extractor_sentinel_substitution
    (o : String → Option (List (String × String))) (s : EStore) (t : Tweet)
    (hnd : (s.tweets.map (fun tw => tw.id)).Nodup)
    (ht : t ∈ extractorItems s) :
    (∀ kvs : List (String × String), kvs.find? (fun p => p.1 == "location") = none →
      (mkReport t kvs).extracted_location = "Extraction Failed") ∧
    (∀ kvs, o t.text = some kvs → kvs.isEmpty = false →
      mkReport t kvs ∈ (runExtractor o s).incident_reports ∧
      t ∉ extractorItems (runExtractor o s)) ∧
    (o t.text = none →
      (∀ r ∈ (runExtractor o s).incident_reports,
        r.original_tweet_id = t.id → r ∈ s.incident_reports) ∧
      t ∈ extractorItems (runExtractor o s)) := by
  refine ⟨?_, ?_, ?_⟩
  · intro kvs hfind
    show pyGet kvs "location" "Extraction Failed" = "Extraction Failed"
    unfold pyGet
    rw [hfind]
  · intro kvs ho hk
    exact extractor_success_row_written o s t kvs hnd ht ho hk
  · intro ho
    exact extractor_failed_item_retried o s t hnd ht ho

/-- C7 witness: a parsed response that lacks the location key produces the
`"Extraction Failed"` sentinel for that field. -/
theorem extractor_sentinel_substitution_witness :
    (⟨1, "Tree down in Viruthampet", "unclassified"⟩ : Tweet) ∈ extractorItems exEStore ∧
    (mkReport ⟨1, "Tree down in Viruthampet", "unclassified"⟩
      [("issue", "Tree down")]).extracted_location = "Extraction Failed" :=
  ⟨by decide,
   (extractor_sentinel_substitution (constKV [("issue", "Tree down")]) exEStore
     ⟨1, "Tree down in Viruthampet", "unclassified"⟩ (by decide) (by decide)).1
     [("issue", "Tree down")] (by decide)⟩

/-- C6 counterexample: in the combined processor a tweet whose extraction
and classification calls both fail still has its status advanced to
`'processed'`, and is not selected again on the next run — contradicting
"no status is advanced … so it is selected again and retried". -/
theorem processor_advances_failed_item :
    runProcessor failKV failKV exPStore
      = ⟨[⟨1, "Tree down in Viruthampet", "processed"⟩], [], []⟩ ∧
    processorItems (runProcessor failKV failKV exPStore) = [] := by
  constructor <;> rfl

/-- C6 amended: a collaborator failure for one item yields no derived row
for it and the batch continues, but what happens to its status depends on
the stage: the standalone extractor leaves the source untouched, so the
item is selected again on the next run; the combined processor advances the
status to `'processed'` unconditionally, so the failed item is never
retried. -/
theorem collaborator_failure_isolation
    (o c : String → Option (List (String × String)))
    (s2 : EStore) (s5 : PStore) (t2 t5 : Tweet)
    (hnd2 : (s2.tweets.map (fun tw => tw.id)).Nodup)
    (ht2 : t2 ∈ extractorItems s2) (ho2 : o t2.text = none)
    (hnd5 : (s5.tweets.map (fun tw => tw.id)).Nodup)
    (ht5 : t5 ∈ processorItems s5) (ho5 : o t5.text = none) (hc5 : c t5.text = none)
    (hpre : ∀ r ∈ s5.incident_reports, r.original_tweet_id ≠ t5.id)
    (hprea : ∀ a ∈ s5.actionable_tweets, a.source_tweet_id ≠ t5.id) :
    ((runExtractor o s2).tweets = s2.tweets ∧
     t2 ∈ extractorItems (runExtractor o s2)) ∧
    ((∀ r ∈ (runProcessor o c s5).incident_reports, r.original_tweet_id ≠ t5.id) ∧
     (∀ a ∈ (runProcessor o c s5).actionable_tweets, a.source_tweet_id ≠ t5.id) ∧
     (∀ tw ∈ (runProcessor o c s5).tweets, tw.id = t5.id → tw.status = "processed") ∧
     (∀ tw ∈ processorItems (runProcessor o c s5), tw.id ≠ t5.id)) := by
  constructor
  · exact ⟨extractorFold_tweets o _ s2,
      (extractor_failed_item_retried o s2 t2 hnd2 ht2 ho2).2⟩
  · have ht5f := List.mem_filter.mp ht5
    have hstat : ∀ tw ∈ (runProcessor o c s5).tweets, tw.id = t5.id →
        tw.status = "processed" :=
      processorFold_status_est o c (processorItems s5) s5 t5 ht5
    refine ⟨?_, ?_, hstat, ?_⟩
    · intro r hr hid
      rcases processorFold_reports_new o c (processorItems s5) s5 r hr with
        hin | ⟨t6, ht6, hid6, kvs, ho6, _⟩
      · exact hpre r hin hid
      · have hteq : t6 = t5 :=
          List.inj_on_of_nodup_map hnd5 (List.mem_filter.mp ht6).1 ht5f.1
            (hid6.symm.trans hid)
        rw [hteq, ho5] at ho6
        cases ho6
    · intro a ha hid
      rcases processorFold_actionable_new o c (processorItems s5) s5 a ha with
        hin | ⟨t6, ht6, hid6, hcl⟩
      · exact hprea a hin hid
      · have hteq : t6 = t5 :=
          List.inj_on_of_nodup_map hnd5 (List.mem_filter.mp ht6).1 ht5f.1
            (hid6.symm.trans hid)
        rw [hteq] at hcl
        unfold classify_text at hcl
        rw [hc5] at hcl
        simp at hcl
    · intro tw htw hid
      have hp := hstat tw (List.mem_filter.mp htw).1 hid
      have h2 := (List.mem_filter.mp htw).2
      rw [hp] at h2
      simp at h2

/-- C6 witness: the amended isolation behaviour on concrete one-item
stores with failing collaborators. -/
theorem collaborator_failure_isolation_witness :
    (⟨1, "Tree down in Viruthampet", "unclassified"⟩ : Tweet) ∈ extractorItems exEStore ∧
    (∀ tw ∈ (runProcessor failKV failKV exPStore).tweets,
      tw.id = 1 → tw.status = "processed") :=
  ⟨by decide,
   (collaborator_failure_isolation failKV failKV exEStore exPStore
     ⟨1, "Tree down in Viruthampet", "unclassified"⟩
     ⟨1, "Tree down in Viruthampet", "unclassified"⟩
     (by decide) (by decide) rfl (by decide) (by decide) rfl rfl
     (fun r hr => absurd hr (List.not_mem_nil r))
     (fun a ha => absurd ha (List.not_mem_nil a))).2.2.2.1⟩
